import Mathlib

/-!
Formal model of the `wssp-gastos` conversational expense-ledger engine.

The definitions below are a shallow embedding of the Python sources:
`app/handlers/message_handler.py`, `app/core/expense_manager.py`,
`app/core/category_manager.py`, `app/core/tag_manager.py`,
`app/rate_limiter.py` and the data model of `app/models.py`.

Modelling conventions:
* Python strings are Lean `String`s; `str.lower`, `str.strip`, `str.split`
  and single-character `str.replace` are re-implemented character by
  character (ASCII semantics, which covers every string the claims touch).
* Python numbers (`int` and `float`) are modelled as `Int`/`Rat`; the float
  values appearing in the claims (`12.50`, `1200.5`, ...) are exactly
  representable, so no floating-point rounding is lost.
* The SQLAlchemy session is modelled as a pair of database snapshots
  `(committed, pending)`: object mutations act on `pending`, `commit` copies
  `pending` over `committed`, `rollback` restores `pending` from `committed`.
* Python exceptions are modelled with `Except String`, carrying `str(e)`.
-/

namespace WG

/-- Python whitespace characters in the ASCII range (space, tab, newline,
carriage return, vertical tab, form feed); this is what `str.strip`,
`str.split()` and the regex class `\s` treat as whitespace for the
ASCII payloads handled here. -/
def isSpacePy (c : Char) : Bool :=
  c == ' ' || c == '\t' || c == '\n' || c == '\r' || c.toNat == 11 || c.toNat == 12

/-- Python `str.lower`, restricted to ASCII case mapping. -/
def pyLower (s : String) : String :=
  String.mk (s.toList.map Char.toLower)

/-- Regex word character (`\w` / the complement of `\b`-boundaries):
letters, digits and underscore (ASCII). -/
def isWordChar (c : Char) : Bool :=
  c.isAlpha || c.isDigit || c == '_'

/-- Python `str.strip()` (no arguments): drop leading and trailing whitespace. -/
def stripPy (s : String) : String :=
  String.mk (((s.toList.dropWhile isSpacePy).reverse.dropWhile isSpacePy).reverse)

/-- Helper for `splitWs`: accumulate the current word (reversed) while
scanning the remaining characters. -/
def splitWsAux : List Char → List Char → List String
  | [], acc => if acc.isEmpty then [] else [String.mk acc.reverse]
  | c :: cs, acc =>
    if isSpacePy c then
      if acc.isEmpty then splitWsAux cs []
      else String.mk acc.reverse :: splitWsAux cs []
    else splitWsAux cs (c :: acc)

/-- Python `str.split()` with no argument: split on whitespace runs and
discard empty pieces. -/
def splitWs (s : String) : List String :=
  splitWsAux s.toList []

/-- Python single-character `str.replace(old, new)`: for one-character
patterns substring replacement coincides with a character map. -/
def strReplaceChar (s : String) (old new : Char) : String :=
  String.mk (s.toList.map (fun c => if c == old then new else c))

/-- The decimal digit character of `k < 10`. -/
def digitChar (k : Nat) : Char :=
  Char.ofNat (48 + k)

/-- Little-endian decimal digits of `n`; the fuel `n + 1` always suffices. -/
def natDigitsAux : Nat → Nat → List Char
  | 0, _ => []
  | fuel + 1, n =>
    if n < 10 then [digitChar n] else digitChar (n % 10) :: natDigitsAux fuel (n / 10)

/-- Digit list (most significant first) of a natural number. -/
def natDigitChars (n : Nat) : List Char :=
  (natDigitsAux (n + 1) n).reverse

/-- Insert `sep` after every third character of a reversed digit list; this
is the thousands grouping of Python's `format(x, ",")` applied from the
right of the number. -/
def group3Rev (sep : Char) : List Char → List Char
  | [] => []
  | [a] => [a]
  | [a, b] => [a, b]
  | [a, b, c] => [a, b, c]
  | a :: b :: c :: rest => a :: b :: c :: sep :: group3Rev sep rest

/-- Python `f"{n:,}"` for an integer `n`: decimal digits with `,` inserted
every three digits from the right, with a leading `-` for negatives. -/
def pyFormatIntComma (n : Int) : String :=
  let digits := natDigitChars n.natAbs
  let grouped := (group3Rev ',' digits.reverse).reverse
  (if n < 0 then "-" else "") ++ String.mk grouped

/-- Python `int(x)` truncation of a rational toward zero. -/
def ratTrunc (q : Rat) : Int :=
  if 0 ≤ q then Int.floor q else -Int.floor (-q)

/-- Round a rational to the nearest integer, ties to even (the rounding used
by Python's fixed-point float formatting). -/
def roundHalfEven (q : Rat) : Int :=
  let f : Int := Int.floor q
  let r : Rat := q - (f : Rat)
  if r < 1/2 then f
  else if (1:Rat)/2 < r then f + 1
  else if f % 2 = 0 then f else f + 1

/-- Two-digit zero-padded decimal rendering (`f"{n:02d}"`). -/
def pad2 (n : Nat) : String :=
  if n < 10 then String.mk ('0' :: natDigitChars n) else String.mk (natDigitChars n)

/-- Python `f"{q:,.2f}"`: round to two decimals (ties to even), group the
integer part with `,`, separate cents with `.`. -/
def pyFormatFloat2Comma (q : Rat) : String :=
  let cents : Int := roundHalfEven (q * 100)
  let a : Nat := cents.natAbs
  let dollars : Nat := a / 100
  let rem : Nat := a % 100
  (if cents < 0 then "-" else "") ++
    pyFormatIntComma (dollars : Int) ++ "." ++ pad2 rem

/-- Fallback rendering used by `parse_money_text` for currencies other than
USD/CLP (`f"{number} {currency}"`).  The code only ever calls the function
with the literals "USD" and "CLP", so this branch is unreachable there; the
rational is printed as `num/den`. -/
def ratPyStr (q : Rat) : String :=
  Int.repr q.num ++ (if q.den = 1 then "" else "/" ++ Nat.repr q.den)

/-- `ExpenseManager.parse_money_text`.  USD: `f"${number:,.2f}"` followed by
the replacement chain `.replace(",", "X").replace(".", ",").replace("X", ".")`
(which swaps the two separators); CLP: `f"${int(number):,}"` followed by
`.replace(",", ".")`. -/
def parseMoneyText (number : Rat) (currency : String) : String :=
  if currency = "USD" then
    let base := "$" ++ pyFormatFloat2Comma number
    strReplaceChar (strReplaceChar (strReplaceChar base ',' 'X') '.' ',') 'X' '.'
  else if currency = "CLP" then
    strReplaceChar ("$" ++ pyFormatIntComma (ratTrunc number)) ',' '.'
  else
    ratPyStr number ++ " " ++ currency

/-- Numeric value of a list of decimal digit characters. -/
def digitsVal (cs : List Char) : Nat :=
  cs.foldl (fun acc c => acc * 10 + (c.toNat - '0'.toNat)) 0

/-- Python `int(s)` on the token shapes the parser can produce: an optional
sign followed by one or more ASCII digits.  (Exotic accepted forms such as
underscore separators or non-ASCII digits are out of scope.)  The error
carries `str(e)` of the `ValueError`. -/
def pyInt (s : String) : Except String Int :=
  let err : Except String Int :=
    Except.error ("invalid literal for int() with base 10: \x27" ++ s ++ "\x27")
  let core : List Char → Except String Int := fun cs =>
    if cs ≠ [] ∧ cs.all Char.isDigit then Except.ok (digitsVal cs : Int) else err
  match s.toList with
  | '-' :: rest => (core rest).map (fun v => -v)
  | '+' :: rest => core rest
  | rest => core rest

/-- Python `float(s)` on decimal forms: optional sign, digits with at most
one `.`, at least one digit overall (accepting "5.", ".5", "5.0" and plain
"5"; exponent/infinity forms are out of scope).  The error carries `str(e)`
of the `ValueError`. -/
def pyFloat (s : String) : Except String Rat :=
  let err : Except String Rat :=
    Except.error ("could not convert string to float: \x27" ++ s ++ "\x27")
  let core : List Char → Except String Rat := fun cs =>
    let intPart := cs.takeWhile (fun c => c ≠ '.')
    let rest := cs.dropWhile (fun c => c ≠ '.')
    let fracPart := rest.drop 1
    if intPart.all Char.isDigit ∧ fracPart.all Char.isDigit ∧
        (intPart ≠ [] ∨ fracPart ≠ []) ∧ rest.length ≤ fracPart.length + 1 then
      Except.ok ((digitsVal intPart : Rat) +
        (digitsVal fracPart : Rat) / ((10 : Rat) ^ fracPart.length))
    else err
  match s.toList with
  | '-' :: rest => (core rest).map (fun v => -v)
  | '+' :: rest => core rest
  | rest => core rest

/-! Calendar arithmetic mirroring Python `datetime` (proleptic Gregorian). -/

/-- Leap year test of the Gregorian calendar. -/
def isLeapYear (y : Nat) : Bool :=
  y % 4 == 0 && (y % 100 != 0 || y % 400 == 0)

/-- Number of days of month `m` (1-12) of year `y`. -/
def daysInMonth (y m : Nat) : Nat :=
  if m = 2 then (if isLeapYear y then 29 else 28)
  else if m = 4 ∨ m = 6 ∨ m = 9 ∨ m = 11 then 30
  else 31

/-- Validity predicate of `datetime.datetime(year, month, day, ...)`:
`ValueError` is raised outside these bounds. -/
def isValidDate (y m d : Nat) : Bool :=
  1 ≤ y && y ≤ 9999 && 1 ≤ m && m ≤ 12 && 1 ≤ d && d ≤ daysInMonth y m

/-- Days of year `y` before month `m`. -/
def daysBeforeMonth (y m : Nat) : Nat :=
  (List.range m).foldl (fun acc i => if 1 ≤ i then acc + daysInMonth y i else acc) 0

/-- Python `date.toordinal()`: day count with `ordinal 1 1 1 = 1`. -/
def dateOrdinal (y m d : Nat) : Nat :=
  365 * (y - 1) + (y - 1) / 4 - (y - 1) / 100 + (y - 1) / 400 + daysBeforeMonth y m + d

/-- A `datetime.datetime` value without microseconds (the code never sets
them explicitly; they only affect sub-second ordering, which no covered
behavior depends on). -/
structure PyDateTime where
  year : Nat
  month : Nat
  day : Nat
  hour : Nat
  minute : Nat
  second : Nat
deriving DecidableEq

/-- Chronological ordering key of a datetime, in seconds. -/
def dtSec (t : PyDateTime) : Nat :=
  dateOrdinal t.year t.month t.day * 86400 + t.hour * 3600 + t.minute * 60 + t.second

/-- Python `date.weekday()`: Monday is 0.  January 1 of year 1 is a Monday. -/
def weekdayOf (y m d : Nat) : Nat :=
  (dateOrdinal y m d + 6) % 7

/-- The day before `(y, m, d)`. -/
def prevDay : Nat × Nat × Nat → Nat × Nat × Nat
  | (y, m, d) =>
    if 1 < d then (y, m, d - 1)
    else if 1 < m then (y, m - 1, daysInMonth y (m - 1))
    else (y - 1, 12, 31)

/-- The day after `(y, m, d)`. -/
def nextDay : Nat × Nat × Nat → Nat × Nat × Nat
  | (y, m, d) =>
    if d < daysInMonth y m then (y, m, d + 1)
    else if m < 12 then (y, m + 1, 1)
    else (y + 1, 1, 1)

/-- Subtract `k` days (`date - timedelta(days=k)`). -/
def subDays (k : Nat) (x : Nat × Nat × Nat) : Nat × Nat × Nat :=
  Nat.rec x (fun _ acc => prevDay acc) k

/-- Add `k` days (`date + timedelta(days=k)`). -/
def addDays (k : Nat) (x : Nat × Nat × Nat) : Nat × Nat × Nat :=
  Nat.rec x (fun _ acc => nextDay acc) k

/-- Python `strftime` zero-padded 4-digit year. -/
def pad4 (n : Nat) : String :=
  if n < 10 then "000" ++ Nat.repr n
  else if n < 100 then "00" ++ Nat.repr n
  else if n < 1000 then "0" ++ Nat.repr n
  else Nat.repr n

/-! `ExpenseManager._split_text_and_tag`: the regex pair
`re.findall(r"@([^\s]+)", texto)` and `re.sub(r"\s*@([^\s]+)", "", texto)`,
implemented as one left-to-right scan.  A match consumes the maximal
whitespace run immediately before the `@` (the greedy `\s*` of the leftmost
match), the `@` itself, and the maximal nonempty run of non-whitespace
characters after it (the captured tag). -/

/-- Scanner for tag extraction; the fuel argument is the length of the
remaining text (each step consumes at least one character). -/
def tagScanAux : Nat → List Char → List Char × List String
  | 0, cs => (cs, [])
  | _, [] => ([], [])
  | fuel + 1, c :: rest =>
    if isSpacePy c then
      match rest.dropWhile isSpacePy with
      | '@' :: d :: ds =>
        if isSpacePy d then
          let r := tagScanAux fuel rest
          (c :: r.1, r.2)
        else
          let tagChars := (d :: ds).takeWhile (fun x => !isSpacePy x)
          let rest' := (d :: ds).dropWhile (fun x => !isSpacePy x)
          let r := tagScanAux fuel rest'
          (r.1, String.mk tagChars :: r.2)
      | _ =>
        let r := tagScanAux fuel rest
        (c :: r.1, r.2)
    else if c == '@' then
      match rest with
      | d :: ds =>
        if isSpacePy d then
          let r := tagScanAux fuel rest
          (c :: r.1, r.2)
        else
          let tagChars := (d :: ds).takeWhile (fun x => !isSpacePy x)
          let rest' := (d :: ds).dropWhile (fun x => !isSpacePy x)
          let r := tagScanAux fuel rest'
          (r.1, String.mk tagChars :: r.2)
      | [] =>
        let r := tagScanAux fuel rest
        (c :: r.1, r.2)
    else
      let r := tagScanAux fuel rest
      (c :: r.1, r.2)

/-- `ExpenseManager._split_text_and_tag`: returns the text with all
`@tag` matches removed (stripped) and the captured tag list, `none` when no
tag was found. -/
def splitTextAndTag (texto : String) : String × Option (List String) :=
  let r := tagScanAux texto.toList.length texto.toList
  (stripPy (String.mk r.1), if r.2.isEmpty then none else some r.2)

/-- Python `str.replace(pat, "")`: remove all (non-overlapping, leftmost)
occurrences of `pat`; fuel is the length of the scanned text. -/
def removeAllAux (pat : List Char) : Nat → List Char → List Char
  | 0, cs => cs
  | _, [] => []
  | fuel + 1, c :: cs =>
    if pat ≠ [] ∧ pat.isPrefixOf (c :: cs) then
      removeAllAux pat fuel ((c :: cs).drop pat.length)
    else c :: removeAllAux pat fuel cs

/-- Python `text.replace(pat, "")` on strings. -/
def pyRemoveAll (text pat : String) : String :=
  String.mk (removeAllAux pat.toList text.toList.length text.toList)

/-! `ExpenseManager._extract_date`: the two date regexes
`r"(\b\d{1,2}[sep]\d{1,2}[sep]\d{2,4}\b)"` and `r"(\b\d{1,2}[sep]\d{1,2}\b)"`,
searched in that order; a `ValueError` from `datetime` makes the loop
`continue` with the next pattern.  The matchers below reproduce the regex
semantics for these two patterns: greedy digit groups with backtracking and
word-boundary checks on both sides. -/

/-- Take exactly `k` leading decimal digits, returning them and the rest. -/
def takeDigits (k : Nat) (cs : List Char) : Option (List Char × List Char) :=
  let pre := cs.take k
  if pre.length = k ∧ pre.all Char.isDigit then some (pre, cs.drop k) else none

/-- A `[sep]` separator character. -/
def isDateSep (c : Char) : Bool :=
  c == '/' || c == '-'

/-- Word-boundary check after a match: the next character, if any, must not
be a word character (the matched text ends in a digit). -/
def boundaryAfter : List Char → Bool
  | [] => true
  | c :: _ => !isWordChar c

/-- Try `\d{k1}[sep]\d{k2}[sep]\d{k3}\b` at the start of `cs`. -/
def tryP1Shape (k1 k2 k3 : Nat) (cs : List Char) :
    Option (List Char × Nat × Nat × Nat) :=
  match takeDigits k1 cs with
  | none => none
  | some (d1, r1) =>
    match r1 with
    | s1 :: r1' =>
      if isDateSep s1 then
        match takeDigits k2 r1' with
        | none => none
        | some (d2, r2) =>
          match r2 with
          | s2 :: r2' =>
            if isDateSep s2 then
              match takeDigits k3 r2' with
              | none => none
              | some (d3, r3) =>
                if boundaryAfter r3 then
                  some (d1 ++ s1 :: d2 ++ s2 :: d3, digitsVal d1, digitsVal d2, digitsVal d3)
                else none
            else none
          | [] => none
      else none
    | [] => none

/-- Try the full-date pattern at the start of `cs`, with the greedy
backtracking order of `\d{1,2}` (two digits first) and `\d{2,4}`
(four digits first). -/
def matchP1At (cs : List Char) : Option (List Char × Nat × Nat × Nat) :=
  [(2,2,4),(2,2,3),(2,2,2),(2,1,4),(2,1,3),(2,1,2),
   (1,2,4),(1,2,3),(1,2,2),(1,1,4),(1,1,3),(1,1,2)].foldl
    (fun acc k => acc <|> tryP1Shape k.1 k.2.1 k.2.2 cs) none

/-- Try `\d{k1}[sep]\d{k2}\b` at the start of `cs`. -/
def tryP2Shape (k1 k2 : Nat) (cs : List Char) : Option (List Char × Nat × Nat) :=
  match takeDigits k1 cs with
  | none => none
  | some (d1, r1) =>
    match r1 with
    | s1 :: r1' =>
      if isDateSep s1 then
        match takeDigits k2 r1' with
        | none => none
        | some (d2, r2) =>
          if boundaryAfter r2 then
            some (d1 ++ s1 :: d2, digitsVal d1, digitsVal d2)
          else none
      else none
    | [] => none

/-- Try the day/month pattern at the start of `cs` (greedy order). -/
def matchP2At (cs : List Char) : Option (List Char × Nat × Nat) :=
  [(2,2),(2,1),(1,2),(1,1)].foldl
    (fun acc k => acc <|> tryP2Shape k.1 k.2 cs) none

/-- Left-to-right `re.search` scan: try a start-anchored matcher at every
position whose preceding character allows a `\b` boundary (the pattern
begins with a digit, so the boundary requires a non-word predecessor or the
start of the string). -/
def searchAux {α : Type} (m : List Char → Option α) :
    Nat → Option Char → List Char → Option α
  | 0, _, _ => none
  | fuel + 1, prev, cs =>
    let ok := match prev with
      | none => true
      | some p => !isWordChar p
    match (if ok then m cs else none) with
    | some r => some r
    | none =>
      match cs with
      | [] => none
      | c :: rest => searchAux m fuel (some c) rest

/-- `re.search` of the full-date pattern over a string. -/
def searchP1 (s : String) : Option (List Char × Nat × Nat × Nat) :=
  searchAux matchP1At (s.toList.length + 1) none s.toList

/-- `re.search` of the day/month pattern over a string. -/
def searchP2 (s : String) : Option (List Char × Nat × Nat) :=
  searchAux matchP2At (s.toList.length + 1) none s.toList

/-- Dispatch on the result of the day/month search (second loop
iteration of `_extract_date`). -/
def extractDateGo2 (text : String) (now : PyDateTime) :
    Option (List Char × Nat × Nat) → String × PyDateTime
  | some (mtxt, d, mo) =>
    if isValidDate now.year mo d then
      (stripPy (pyRemoveAll text (String.mk mtxt)), ⟨now.year, mo, d, 12, 0, 0⟩)
    else (text, now)
  | none => (text, now)

/-- Second half of `_extract_date`: the day/month pattern with the current
year assumed, falling back to the processing timestamp. -/
def extractDateP2 (text : String) (now : PyDateTime) : String × PyDateTime :=
  extractDateGo2 text now (searchP2 text)

/-- Dispatch on the result of the full-date search (first loop iteration
of `_extract_date`); an invalid date continues with the second pattern. -/
def extractDateGo1 (text : String) (now : PyDateTime) :
    Option (List Char × Nat × Nat × Nat) → String × PyDateTime
  | some (mtxt, d, mo, yr) =>
    let y := if yr < 100 then yr + 2000 else yr
    if isValidDate y mo d then
      (stripPy (pyRemoveAll text (String.mk mtxt)), ⟨y, mo, d, 12, 0, 0⟩)
    else extractDateP2 text now
  | none => extractDateP2 text now

/-- `ExpenseManager._extract_date`: scan for the full-date pattern, then the
day/month pattern; two-digit years are promoted by adding 2000; an invalid
numeric date makes the loop continue with the next pattern; with no parsed
date the processing timestamp `now` is returned with the text unchanged.
The matched substring is removed with `str.replace` (all occurrences) and
the text stripped. -/
def extractDate (text : String) (now : PyDateTime) : String × PyDateTime :=
  extractDateGo1 text now (searchP1 text)

/-! Data model (`app/models.py`), reduced to the columns the handled flows
read or write.  `defaultCurrency` models `UserSettings.default_currency`
("CLP" unless configured); the expense parser never reads it. -/

/-- A `users` row (with its `user_settings.default_currency`). -/
structure UserRow where
  id : Nat
  phone : String
  isBlocked : Bool
  defaultCurrency : String
  lastSeenSec : Option Int
deriving DecidableEq

/-- A `categories` row. -/
structure Cat where
  id : Nat
  name : String
  shortName : Option String
  emoji : Option String
  parentId : Option Nat
  isSystem : Bool
deriving DecidableEq

/-- A `tag` row. -/
structure TagRow where
  id : Nat
  name : String
deriving DecidableEq

/-- An `expenses` row; `tagIds` models the `expense_tag` association rows of
this expense and `createdSeq` the strictly increasing `created_at` stamp. -/
structure ExpenseRow where
  id : Nat
  userId : Nat
  amount : Rat
  currency : String
  categoryId : Option Nat
  description : String
  status : String
  tagIds : List Nat
  expenseDate : PyDateTime
  createdSeq : Nat
  rawText : String
  chatId : String
deriving DecidableEq

/-- A `message_log` row. -/
structure LogRow where
  provider : String
  providerMessageId : String
  chatId : String
  direction : String
  text : String
  status : String
  error : Option String
deriving DecidableEq

/-- One database snapshot; the `next*` counters model primary-key
generation and `seq` the `created_at` clock. -/
structure DB where
  users : List UserRow
  categories : List Cat
  tags : List TagRow
  expenses : List ExpenseRow
  logs : List LogRow
  nextUserId : Nat
  nextTagId : Nat
  nextExpenseId : Nat
  nextCatId : Nat
  seq : Nat
deriving DecidableEq

/-- A SQLAlchemy session: object mutations act on `pending`; `commit` makes
them durable, `rollback` discards them. -/
structure Sess where
  committed : DB
  pending : DB
deriving DecidableEq

/-- `session.commit()`. -/
def commitS (s : Sess) : Sess := ⟨s.pending, s.pending⟩

/-- `session.rollback()`. -/
def rollbackS (s : Sess) : Sess := ⟨s.committed, s.committed⟩

/-- An outbound WhatsApp delivery (`WhatsAppService.send_message` or
`send_confirm_interaction`); the external sender is fire-and-forget. -/
inductive OutMsg
  | text (recipient body : String)
  | interactive (recipient body : String) (expenseId : Nat)
deriving DecidableEq

/-! `RateLimiter` (`app/rate_limiter.py`): per-user sliding window of
`datetime.utcnow()` stamps, modelled in whole seconds. -/

/-- The in-process `user_windows` mapping (`defaultdict(list)`). -/
abbrev RLState : Type := List (Nat × List Int)

/-- `msg_limit`. -/
def rlMsgLimit : Nat := 30

/-- `window_seconds`. -/
def rlWindowSeconds : Int := 300

/-- Read a user's window (`defaultdict` returns `[]` for absent keys). -/
def rlLookup (st : RLState) (uid : Nat) : List Int :=
  ((st.find? (fun p => p.1 == uid)).map Prod.snd).getD []

/-- Write a user's window back into the mapping. -/
def rlSet (st : RLState) (uid : Nat) (w : List Int) : RLState :=
  if st.any (fun p => p.1 == uid) then
    st.map (fun p => if p.1 == uid then (uid, w) else p)
  else st ++ [(uid, w)]

/-- `RateLimiter.check`: drop stamps at least `window_seconds` old, reject
when `msg_limit` many remain, otherwise record `now` and admit.  The
function is total: it returns a boolean and never raises. -/
def rateLimiterCheck (nowSec : Int) (uid : Nat) (st : RLState) : Bool × RLState :=
  let fresh := (rlLookup st uid).filter (fun t => nowSec - t < rlWindowSeconds)
  if rlMsgLimit ≤ fresh.length then (false, rlSet st uid fresh)
  else (true, rlSet st uid (fresh ++ [nowSec]))

/-! `TagManager` (`app/core/tag_manager.py`). -/

/-- One iteration of the `get_or_create_tags` loop: look the name up in the
session, create the tag row when absent. -/
def tagStep (acc : List Nat × DB) (name : String) : List Nat × DB :=
  match acc.2.tags.find? (fun t => t.name == name) with
  | some t => (acc.1 ++ [t.id], acc.2)
  | none =>
    (acc.1 ++ [acc.2.nextTagId],
      { acc.2 with
          tags := acc.2.tags ++ [⟨acc.2.nextTagId, name⟩],
          nextTagId := acc.2.nextTagId + 1 })

/-- `TagManager.get_or_create_tags`: per name, look up by exact name in the
session, create when absent, then `commit` — note the commit makes every
mutation of the enclosing message transaction durable at this point. -/
def getOrCreateTags (names : List String) (s : Sess) : List Nat × Sess :=
  let r := names.foldl tagStep ([], s.pending)
  (r.1, commitS ⟨s.committed, r.2⟩)

/-- `TagManager.list_tags`: tags joined to some expense of the user. -/
def listTags (user : UserRow) (db : DB) : String :=
  let used := db.tags.filter
    (fun t => db.expenses.any (fun e => e.userId == user.id && e.tagIds.contains t.id))
  if used.isEmpty then "No hay etiquetas disponibles."
  else "Etiquetas existentes:\n" ++ ", ".intercalate (used.map (·.name))

/-- `TagManager.action`. -/
def tagAction (user : UserRow) (db : DB) (action : String) : String :=
  if action == "list" then listTags user db
  else "Acción no reconocida. Usa \x27create <tag_name>\x27 o \x27list\x27."

/-! `ExpenseManager` (`app/core/expense_manager.py`). -/

/-- Python `str()` of the amount attribute: integers print bare, and a
non-integral float prints its (finite) decimal expansion.  (An exactly
integral value that was created through the float branch would print with a
trailing `.0` in Python; the rendering below drops it — no claim depends on
such an amount.) -/
def ratAmountStr (q : Rat) : String :=
  if q.den = 1 then Int.repr q.num
  else
    let k := ((List.range 65).find? (fun k => (10 : Nat) ^ k % q.den == 0)).getD 64
    let scaled := q.num.natAbs * ((10 : Nat) ^ k / q.den)
    let digits := Nat.repr (scaled % 10 ^ k)
    let padded := List.replicate (k - digits.length) '0' ++ digits.toList
    let frac := String.mk (padded.reverse.dropWhile (· == '0')).reverse
    (if q.num < 0 then "-" else "") ++ Nat.repr (scaled / 10 ^ k) ++ "." ++ frac

/-- `Expense.__str__`: `"{currency} {amount} - {description}{tags}"` with
the tag block present only when the expense has tags. -/
def expenseStr (e : ExpenseRow) (db : DB) : String :=
  let tagNames := e.tagIds.filterMap
    (fun tid => (db.tags.find? (fun t => t.id == tid)).map (·.name))
  let tagsPart :=
    if e.tagIds.isEmpty then ""
    else " tags [" ++ " ".intercalate tagNames ++ "]"
  e.currency ++ " " ++ ratAmountStr e.amount ++ " - " ++
    (if e.description = "" then "No description" else e.description) ++ tagsPart

/-- The `ilike` category lookup of `create_expense_from_text`: the first
row whose `short_name` or `name` matches case-insensitively.  (`ilike`
wildcards `%`/`_` in the user token are out of scope.) -/
def expenseCategoryLookup (db : DB) (q : String) : Option Cat :=
  db.categories.find?
    (fun c => (c.shortName.map (fun sn => pyLower sn == pyLower q)).getD false
      || pyLower c.name == pyLower q)

/-- Set the status of one expense row (ORM object mutation). -/
def setExpenseStatus (db : DB) (eid : Nat) (st : String) : DB :=
  { db with
      expenses := db.expenses.map
        (fun e => if e.id == eid then { e with status := st } else e) }

/-- A `button_reply` payload. -/
structure ButtonReply where
  id : String
  title : String
deriving DecidableEq

/-- An `interactive` payload. -/
structure Interactive where
  type : String
  buttonReply : Option ButtonReply
deriving DecidableEq

/-- Python `s.split("_", 1)` unpacked into two pieces; `none` models the
`ValueError` when no underscore is present. -/
def splitOnceUnderscore (s : String) : Option (String × String) :=
  if s.toList.contains '_' then
    some (String.mk (s.toList.takeWhile (fun c => c ≠ '_')),
      String.mk ((s.toList.dropWhile (fun c => c ≠ '_')).drop 1))
  else none

/-- `ExpenseManager.handle_interactive_response`: decode
`<instruction>_<expense_id>`, fetch the expense by `(id, user_id)` — note:
no status filter — and set `confirmed`/`rejected` with an immediate commit;
unknown expense or unknown instruction produce a notice without mutation. -/
def handleInteractiveResponse (user : UserRow) (inter : Interactive) (s : Sess) :
    Sess × List OutMsg × Except String Unit :=
  if inter.type == "button_reply" then
    match inter.buttonReply with
    | none => (s, [], Except.ok ())
    | some br =>
      match splitOnceUnderscore br.id with
      | none => (s, [], Except.error "not enough values to unpack (expected 2, got 1)")
      | some (instruction, idStr) =>
        match pyInt idStr with
        | Except.error e => (s, [], Except.error e)
        | Except.ok expenseId =>
          match s.pending.expenses.find?
              (fun e => (e.id : Int) == expenseId && e.userId == user.id) with
          | none =>
            (s, [OutMsg.text user.phone "❌ No se encontró el gasto solicitado."],
              Except.ok ())
          | some e =>
            if instruction == "confirm" then
              let s' := commitS ⟨s.committed, setExpenseStatus s.pending e.id "confirmed"⟩
              (s', [OutMsg.text user.phone
                ("✅ *¡Gasto confirmado exitosamente!*\n" ++
                  expenseStr { e with status := "confirmed" } s'.pending ++
                  "\n\n¡Tu gasto ha sido registrado correctamente! 💫")],
                Except.ok ())
            else if instruction == "decline" then
              let s' := commitS ⟨s.committed, setExpenseStatus s.pending e.id "rejected"⟩
              (s', [OutMsg.text user.phone
                ("❌ *Gasto rechazado:*\n" ++
                  expenseStr { e with status := "rejected" } s'.pending ++
                  "\n\nEl gasto ha sido rechazado y no se guardará en tus registros.")],
                Except.ok ())
            else
              (s, [OutMsg.text user.phone ("⚠️ Acción no reconocida: " ++ instruction)],
                Except.ok ())
  else (s, [], Except.ok ())

/-- `ExpenseManager.create_expense_from_text`: lowercase and strip, extract
tags then a date, resolve tags (get-or-create, with its commit), parse
token 0 as the amount (`,`/`.` present: normalize `,` to `.`, append `"0"`,
parse as float, currency USD; otherwise `int`, currency CLP), token 1 as
the category reference (`"x"` when absent), the remaining tokens as the
description; create the draft expense, commit, and send the interactive
confirmation.  Parse failures raise (`Except.error`).  The body after tag
and date extraction is processed by `createExpenseCore`. -/
def createExpenseCore (user : UserRow) (dateVal : PyDateTime) (rawText : String)
    (tagIds : List Nat) (s1 : Sess) (items : List String) :
    Sess × List OutMsg × Except String Unit :=
  match items.head? with
  | none => (s1, [], Except.error "list index out of range")
  | some price0 =>
    let hasSep := price0.toList.any (fun c => c == ',' || c == '.')
    let amountE : Except String Rat :=
      if hasSep then pyFloat (strReplaceChar price0 ',' '.' ++ "0")
      else (pyInt price0).map (fun n => (n : Rat))
    match amountE with
    | Except.error e => (s1, [], Except.error e)
    | Except.ok amount =>
      let currency := if hasSep then "USD" else "CLP"
      let category := ((items.drop 1).head?).getD "x"
      let description :=
        if 2 < items.length then " ".intercalate (items.drop 2) else "No description"
      let categoryObj := expenseCategoryLookup s1.pending category
      let expense : ExpenseRow :=
        { id := s1.pending.nextExpenseId, userId := user.id, amount := amount,
          currency := currency, categoryId := categoryObj.map (·.id),
          description := description, status := "draft", tagIds := tagIds,
          expenseDate := dateVal, createdSeq := s1.pending.seq,
          rawText := rawText, chatId := user.phone }
      let db2 :=
        { s1.pending with
            expenses := s1.pending.expenses ++ [expense],
            nextExpenseId := s1.pending.nextExpenseId + 1,
            seq := s1.pending.seq + 1 }
      let s2 := commitS ⟨s1.committed, db2⟩
      (s2, [OutMsg.interactive user.phone
        ("💰 *Gasto en proceso:* \n" ++ expenseStr expense db2) expense.id],
        Except.ok ())

/-- Tag resolution of the expense pipeline (`if tags:` around
`get_or_create_tags`). -/
def tagResolve (tagsOpt : Option (List String)) (s : Sess) : List Nat × Sess :=
  match tagsOpt with
  | some tags => getOrCreateTags tags s
  | none => ([], s)

/-- `ExpenseManager.create_expense_from_text`: the tag/date extraction
pipeline in front of `createExpenseCore`. -/
def createExpenseFromText (user : UserRow) (now : PyDateTime) (text : String) (s : Sess) :
    Sess × List OutMsg × Except String Unit :=
  let parsedText := pyLower (stripPy text)
  let split1 := splitTextAndTag parsedText
  let split2 := extractDate split1.1 now
  let tagRes := tagResolve split1.2 s
  createExpenseCore user split2.2 text tagRes.1 tagRes.2 (splitWs split2.1)

/-! Read-side expense operations.  `Expense` has no `custom_str` method in
`app/models.py`, so every rendering loop that reaches a row raises
`AttributeError("'Expense' object has no attribute 'custom_str'")`; the
listing functions therefore return their no-result strings or raise. -/

/-- `str(e)` of the `AttributeError` raised by `expense.custom_str(...)`. -/
def attrErrCustomStr : String :=
  "\x27Expense\x27 object has no attribute \x27custom_str\x27"

/-- Sum of the amounts in one currency (`sum` starts from the int `0`). -/
def sumCur (cur : String) (es : List ExpenseRow) : Rat :=
  es.foldl (fun a e => if e.currency == cur then a + e.amount else a) 0

/-- `ExpenseManager._calculate_totals`: formatted CLP and USD totals. -/
def calculateTotals (es : List ExpenseRow) : String × String :=
  (parseMoneyText (sumCur "CLP" es) "CLP", parseMoneyText (sumCur "USD" es) "USD")

/-- `order_by(Expense.expense_date.desc())` (stable on equal dates). -/
def sortByDateDesc (es : List ExpenseRow) : List ExpenseRow :=
  es.mergeSort (fun a b => decide (dtSec b.expenseDate ≤ dtSec a.expenseDate))

/-- `ExpenseManager._get_expenses_by_date_range`. -/
def getExpensesByDateRange (user : UserRow) (db : DB) (startT endT : PyDateTime) :
    List ExpenseRow :=
  sortByDateDesc (db.expenses.filter
    (fun e => e.userId == user.id && dtSec startT ≤ dtSec e.expenseDate
      && dtSec e.expenseDate < dtSec endT))

/-- Month-name table of `_parse_month` / `_get_month_name`. -/
def mesesList : List (String × Nat) :=
  [("enero", 1), ("febrero", 2), ("marzo", 3), ("abril", 4), ("mayo", 5),
   ("junio", 6), ("julio", 7), ("agosto", 8), ("septiembre", 9),
   ("octubre", 10), ("noviembre", 11), ("diciembre", 12)]

/-- `ExpenseManager._parse_month`: an in-range integer or a Spanish name. -/
def parseMonthPy (s : String) : Option Nat :=
  match pyInt s with
  | Except.ok n => if 1 ≤ n ∧ n ≤ 12 then some n.toNat else none
  | Except.error _ => (mesesList.find? (fun p => p.1 == pyLower s)).map (·.2)

/-- `ExpenseManager._get_month_name`. -/
def monthNameOf (m : Nat) : String :=
  ((mesesList.find? (fun p => p.2 == m)).map (·.1)).getD "mes desconocido"

/-- `expense.category.name if expense.category else "Sin categoría"`. -/
def expenseCatName (db : DB) (e : ExpenseRow) : String :=
  (((e.categoryId.bind (fun cid => db.categories.find? (fun c => c.id == cid)))).map
    (·.name)).getD "Sin categoría"

/-- `ExpenseManager._list_expenses_by_tags`: the user's expenses joined to
a tag whose name is in the requested list; any hit raises in the
`custom_str` rendering loop. -/
def listExpensesByTags (user : UserRow) (db : DB) (tags : List String) :
    Except String String :=
  let es := db.expenses.filter
    (fun e => e.userId == user.id && e.tagIds.any
      (fun tid => ((db.tags.find? (fun t => t.id == tid)).map
        (fun t => tags.contains t.name)).getD false))
  if es.isEmpty then Except.ok "No se encontraron gastos con las etiquetas especificadas."
  else Except.error attrErrCustomStr

/-- `ExpenseManager._get_expenses_by_month`. -/
def getExpensesByMonth (user : UserRow) (db : DB) (now : PyDateTime)
    (month : Option Nat) : List ExpenseRow :=
  match month with
  | some m =>
    let startT : PyDateTime := ⟨now.year, m, 1, 0, 0, 0⟩
    let endT : PyDateTime :=
      if m = 12 then ⟨now.year + 1, 1, 1, 0, 0, 0⟩ else ⟨now.year, m + 1, 1, 0, 0, 0⟩
    sortByDateDesc (db.expenses.filter
      (fun e => e.userId == user.id && dtSec startT ≤ dtSec e.expenseDate
        && dtSec e.expenseDate < dtSec endT))
  | none => sortByDateDesc (db.expenses.filter (fun e => e.userId == user.id))

/-- `ExpenseManager._list_expenses_by_month`. -/
def listExpensesByMonth (user : UserRow) (db : DB) (now : PyDateTime)
    (text : String) : Except String String :=
  let items := splitWs text
  let go : Option Nat → Except String String := fun month =>
    let es := getExpensesByMonth user db now month
    if es.isEmpty then Except.ok "No se encontraron gastos para el período especificado."
    else Except.error attrErrCustomStr
  match (items.drop 1).head? with
  | some mi =>
    match parseMonthPy mi with
    | none => Except.ok "❌ Mes no válido. Usa número (1-12) o nombre del mes en español."
    | some m => go (some m)
  | none => go none

/-- `ExpenseManager.list_expenses`. -/
def listExpenses (user : UserRow) (db : DB) (now : PyDateTime) (text : String) :
    Except String String :=
  let sp := splitTextAndTag (pyLower (stripPy text))
  match sp.2 with
  | some tags => listExpensesByTags user db tags
  | none => listExpensesByMonth user db now sp.1

/-- Per-category accumulator of the weekly/monthly breakdowns. -/
structure CatAgg where
  clp : Rat
  usd : Rat
  count : Nat
deriving DecidableEq

/-- The `categories` dict of the weekly/monthly summaries: an
insertion-ordered mapping; a currency other than CLP/USD raises the
`KeyError` of `categories[cat_name][expense.currency.lower()]`. -/
def catBreakdown (db : DB) (es : List ExpenseRow) :
    Except String (List (String × CatAgg)) :=
  es.foldl
    (fun acc e =>
      match acc with
      | Except.error _ => acc
      | Except.ok l =>
        let name := expenseCatName db e
        let cur := pyLower e.currency
        if cur ≠ "clp" ∧ cur ≠ "usd" then Except.error ("\x27" ++ cur ++ "\x27")
        else
          let l' := if l.any (fun p => p.1 == name) then l else l ++ [(name, ⟨0, 0, 0⟩)]
          Except.ok (l'.map (fun p =>
            if p.1 == name then
              (p.1,
                if cur == "clp" then
                  { p.2 with clp := p.2.clp + e.amount, count := p.2.count + 1 }
                else { p.2 with usd := p.2.usd + e.amount, count := p.2.count + 1 })
            else p)))
    (Except.ok [])

/-- `ExpenseManager._get_daily_summary`: the `custom_str` loop over the last
three expenses raises whenever any expense exists. -/
def dailySummary (user : UserRow) (db : DB) (now : PyDateTime) :
    Except String String :=
  let startT : PyDateTime := ⟨now.year, now.month, now.day, 0, 0, 0⟩
  let endD := addDays 1 (now.year, now.month, now.day)
  let endT : PyDateTime := ⟨endD.1, endD.2.1, endD.2.2, 0, 0, 0⟩
  let es := getExpensesByDateRange user db startT endT
  if es.isEmpty then Except.ok "📅 *Resumen del día:*\nNo tienes gastos registrados hoy."
  else Except.error attrErrCustomStr

/-- `ExpenseManager._get_weekly_summary`. -/
def weeklySummary (user : UserRow) (db : DB) (now : PyDateTime) :
    Except String String :=
  let wd := weekdayOf now.year now.month now.day
  let monday := subDays wd (now.year, now.month, now.day)
  let startT : PyDateTime := ⟨monday.1, monday.2.1, monday.2.2, 0, 0, 0⟩
  let endD := addDays 7 monday
  let endT : PyDateTime := ⟨endD.1, endD.2.1, endD.2.2, 0, 0, 0⟩
  let es := getExpensesByDateRange user db startT endT
  if es.isEmpty then Except.ok "📅 *Resumen semanal:*\nNo tienes gastos registrados esta semana."
  else
    let totals := calculateTotals es
    let avgClp := sumCur "CLP" es / 7
    let avgUsd := sumCur "USD" es / 7
    match catBreakdown db es with
    | Except.error e => Except.error e
    | Except.ok cats =>
      let sorted := cats.mergeSort
        (fun a b => decide (b.2.clp + b.2.usd ≤ a.2.clp + a.2.usd))
      let lines := sorted.map (fun p =>
        "• " ++ p.1 ++ ": " ++ parseMoneyText p.2.clp "CLP" ++ " CLP / " ++
          parseMoneyText p.2.usd "USD" ++ " USD (" ++ Nat.repr p.2.count ++ " gastos)\n")
      Except.ok
        ("📅 *Resumen semanal - " ++ pad2 startT.day ++ "/" ++ pad2 startT.month ++
          " al " ++ pad2 endT.day ++ "/" ++ pad2 endT.month ++ ":*\n\n" ++
          "💰 Total: " ++ totals.1 ++ " CLP / " ++ totals.2 ++ " USD\n" ++
          "📊 Cantidad de gastos: " ++ Nat.repr es.length ++ "\n" ++
          "📈 Promedio diario: " ++ parseMoneyText avgClp "CLP" ++ " CLP / " ++
          parseMoneyText avgUsd "USD" ++ " USD\n\n" ++
          "*Gastos por categoría:*\n" ++ String.join lines)

/-- `ExpenseManager._get_monthly_summary`. -/
def monthlySummary (user : UserRow) (db : DB) (targetMonth targetYear : Nat) :
    Except String String :=
  let startT : PyDateTime := ⟨targetYear, targetMonth, 1, 0, 0, 0⟩
  let endT : PyDateTime :=
    if targetMonth = 12 then ⟨targetYear + 1, 1, 1, 0, 0, 0⟩
    else ⟨targetYear, targetMonth + 1, 1, 0, 0, 0⟩
  let es := getExpensesByDateRange user db startT endT
  let monthName := monthNameOf targetMonth
  if es.isEmpty then
    Except.ok ("📅 *Resumen mensual:*\nNo tienes gastos registrados en " ++
      monthName ++ " " ++ Nat.repr targetYear ++ ".")
  else
    let totals := calculateTotals es
    let daysCount := dateOrdinal endT.year endT.month endT.day -
      dateOrdinal startT.year startT.month startT.day
    let avgClp := sumCur "CLP" es / (daysCount : Rat)
    let avgUsd := sumCur "USD" es / (daysCount : Rat)
    match catBreakdown db es with
    | Except.error e => Except.error e
    | Except.ok cats =>
      let lines := cats.map (fun p =>
        "• " ++ p.1 ++ ": " ++
          (if 0 < p.2.clp then parseMoneyText p.2.clp "CLP" ++ " CLP" else "") ++
          (if 0 < p.2.usd then "| " ++ parseMoneyText p.2.usd "USD" ++ " USD" else "") ++
          " (" ++ Nat.repr p.2.count ++ " gastos)\n")
      Except.ok
        ("📅 *Resumen mensual - " ++ monthName ++ " " ++ Nat.repr targetYear ++
          ":*\n\n" ++
          "💰 Total: " ++ totals.1 ++ " CLP / " ++ totals.2 ++ " USD\n" ++
          "📊 Cantidad de gastos: " ++ Nat.repr es.length ++ "\n" ++
          "📈 Promedio diario: " ++ parseMoneyText avgClp "CLP" ++ " CLP / " ++
          parseMoneyText avgUsd "USD" ++ " USD\n\n" ++
          "*Categorías:*\n" ++ String.join lines)

/-- `ExpenseManager.get_summary`: note that `items[1]` raises `IndexError`
when the (nonempty) command has no period token. -/
def getSummary (user : UserRow) (db : DB) (now : PyDateTime) (text : String) :
    Except String String :=
  let items := splitWs (pyLower (stripPy text))
  match items with
  | [] => dailySummary user db now
  | _ :: rest =>
    match rest.head? with
    | none => Except.error "list index out of range"
    | some period =>
      if (["day", "hoy", "today", "diario"] : List String).contains period then
        dailySummary user db now
      else if (["week", "semana", "semanal"] : List String).contains period then
        weeklySummary user db now
      else if (["month", "mes", "mensual"] : List String).contains period then
        match (rest.drop 1).head? with
        | some mi =>
          match parseMonthPy mi with
          | none => Except.ok "❌ Mes no válido. Usa número (1-12) o nombre del mes en español."
          | some m => monthlySummary user db m now.year
        | none => monthlySummary user db now.month now.year
      else Except.ok "❌ Período no válido. Usa: \x27hoy\x27, \x27semana\x27 o \x27mes [mes_opcional]\x27"

/-- `ExpenseManager.delete_last_expense`: remove the newest expense of the
user (any status) with its own commit. -/
def deleteLastExpense (user : UserRow) (s : Sess) : Sess × String :=
  let mine := (s.pending.expenses.filter (fun e => e.userId == user.id)).mergeSort
    (fun a b => decide (b.createdSeq ≤ a.createdSeq))
  match mine.head? with
  | none => (s, "❌ No tienes gastos para eliminar.")
  | some e =>
    let info := expenseStr e s.pending
    let db' := { s.pending with expenses := s.pending.expenses.eraseP (fun x => x.id == e.id) }
    (commitS ⟨s.committed, db'⟩,
      "🗑️ *Último gasto eliminado:*\n" ++ info ++
        "\n\n✅ El gasto ha sido eliminado de tus registros.")

/-- Python `needle in hay` on strings (contiguous substring test), used for
`ilike("%term%")` containment. -/
def containsSub (needle : List Char) : List Char → Bool
  | [] => needle.isEmpty
  | c :: rest => needle.isPrefixOf (c :: rest) || containsSub needle rest

/-- `ExpenseManager.search_expenses`: any hit in the description, category
or amount searches reaches the `custom_str` loop and raises. -/
def searchExpenses (user : UserRow) (db : DB) (term0 : String) :
    Except String String :=
  if term0 = "" ∨ (stripPy term0).toList.length < 2 then
    Except.ok "❌ El término de búsqueda debe tener al menos 2 caracteres."
  else
    let term := pyLower (stripPy term0)
    let mine := db.expenses.filter (fun e => e.userId == user.id)
    let descHits := mine.filter
      (fun e => containsSub term.toList (pyLower e.description).toList)
    let catHits := mine.filter
      (fun e => ((e.categoryId.bind
        (fun cid => db.categories.find? (fun c => c.id == cid))).map
          (fun c => containsSub term.toList (pyLower c.name).toList)).getD false)
    let amtHits : List ExpenseRow := match pyFloat (strReplaceChar term ',' '.') with
      | Except.ok v => mine.filter (fun e => e.amount == v)
      | Except.error _ => []
    if descHits.isEmpty ∧ catHits.isEmpty ∧ amtHits.isEmpty then
      Except.ok ("❌ No se encontraron gastos que contengan \x27" ++ term ++ "\x27.")
    else Except.error attrErrCustomStr

/-! `CategoryManager` (`app/core/category_manager.py`). -/

/-- `_CLEAR_TOKENS`. -/
def clearTokens : List String := ["", "-", "none", "null", "ninguno"]

/-- `CategoryManager._should_clear`. -/
def shouldClear : Option String → Bool
  | none => false
  | some v => clearTokens.contains (pyLower (stripPy v))

/-- `CategoryManager._normalize_code`. -/
def normalizeCode : Option String → Option String
  | none => none
  | some c =>
    let cleaned := pyLower (stripPy c)
    if cleaned = "" then none else some cleaned

/-- `CategoryManager._tokenize`: `shlex.split` with a whitespace-split
fallback; on input without quote or escape characters (all inputs the
claims quantify over) `shlex.split` agrees with `str.split()`. -/
def catTokenize (text : String) : List String :=
  splitWs (stripPy text)

/-- Update an option dict entry (later `key=value` tokens overwrite). -/
def optPut (opts : List (String × String)) (k v : String) : List (String × String) :=
  if opts.any (fun p => p.1 == k) then
    opts.map (fun p => if p.1 == k then (k, v) else p)
  else opts ++ [(k, v)]

/-- Read an option dict entry. -/
def optGet (opts : List (String × String)) (k : String) : Option String :=
  (opts.find? (fun p => p.1 == k)).map (·.2)

/-- `CategoryManager._split_name_and_options`: tokens containing `=` become
`key=value` options (key lowercased and stripped, value stripped, split at
the first `=`); the rest are name tokens in order. -/
def splitNameAndOptions (tokens : List String) : List String × List (String × String) :=
  tokens.foldl
    (fun acc token =>
      if token.toList.contains '=' then
        let key := String.mk (token.toList.takeWhile (fun c => c ≠ '='))
        let value := String.mk ((token.toList.dropWhile (fun c => c ≠ '=')).drop 1)
        (acc.1, optPut acc.2 (pyLower (stripPy key)) (stripPy value))
      else (acc.1 ++ [token], acc.2))
    ([], [])

/-- `CategoryManager._pick_option`: first key of the tuple present. -/
def pickOption (opts : List (String × String)) (keys : List String) : Option String :=
  match keys with
  | [] => none
  | k :: rest => match optGet opts k with
    | some v => some v
    | none => pickOption opts rest

/-- `CategoryManager._get_category_by_identifier`: case-insensitive
short-code match first, then case-insensitive name match. -/
def getCategoryByIdentifier (cats : List Cat) (identifier : String) : Option Cat :=
  if identifier = "" then none
  else
    let ident := pyLower (stripPy identifier)
    if ident = "" then none
    else
      match cats.find? (fun c => (c.shortName.map (fun sn => pyLower sn == ident)).getD false) with
      | some c => some c
      | none => cats.find? (fun c => pyLower c.name == ident)

/-- `CategoryManager._get_category_by_short`. -/
def getCategoryByShort (cats : List Cat) (sn : String) : Option Cat :=
  if sn = "" then none
  else cats.find? (fun c => (c.shortName.map (fun s => pyLower s == pyLower sn)).getD false)

/-- `CategoryManager._category_exists`: case-insensitive name match within
the given parent scope; `exclude_id` is only applied when truthy (the id
`0` would not be excluded, mirroring `if exclude_id:`). -/
def categoryExists (cats : List Cat) (name : String) (parent : Option Cat)
    (excludeId : Option Nat) : Bool :=
  if name = "" then false
  else
    let base := cats.filter (fun c => pyLower c.name == pyLower name)
    let inScope : List Cat := match parent with
      | some p => base.filter (fun c => c.parentId == some p.id)
      | none => base.filter (fun c => c.parentId == none)
    let final :=
      if excludeId.getD 0 ≠ 0 then inScope.filter (fun c => c.id ≠ excludeId.getD 0)
      else inScope
    !final.isEmpty

/-- Probing loop of `_generate_short_name`; each collision is witnessed by
a distinct existing row, so `cats.length + 2` fuel always suffices. -/
def genShortAux (cats : List Cat) (base : String) : Nat → Nat → String → String
  | 0, _, cand => cand
  | fuel + 1, suffix, cand =>
    if (getCategoryByShort cats cand).isSome then
      let next :=
        if base.take 4 ≠ "" then base.take 4 ++ Nat.repr suffix
        else "cat" ++ Nat.repr suffix
      genShortAux cats base fuel (suffix + 1) next
    else cand

/-- `CategoryManager._generate_short_name`. -/
def generateShortName (cats : List Cat) (name : String) : String :=
  let b0 := String.mk ((pyLower name).toList.filter Char.isAlphanum)
  let base := if b0 = "" then "cat" else b0
  let candidate0 := if base.take 6 = "" then "cat" else base.take 6
  genShortAux cats base (cats.length + 2) 1 candidate0

/-- Mutate the (unique) category row with the given id. -/
def setCat (cats : List Cat) (cid : Nat) (f : Cat → Cat) : List Cat :=
  cats.map (fun c => if c.id == cid then f c else c)

/-- Resolve a category row by id (ORM relationship access). -/
def catById (cats : List Cat) (cid : Nat) : Option Cat :=
  cats.find? (fun c => c.id == cid)

/-- `CategoryManager._is_descendant`: walk the ancestor chain of `cur`
(starting at the candidate parent) looking for `tid`.  The Python `while`
loop terminates exactly when the chain is finite; the fuel `cats.length + 1`
is enough on every acyclic database. -/
def isDescAux (cats : List Cat) (tid : Nat) : Nat → Nat → Bool
  | 0, _ => false
  | fuel + 1, cur =>
    cur == tid ||
      match (catById cats cur).bind (·.parentId) with
      | some p => isDescAux cats tid fuel p
      | none => false

/-- `CategoryManager._is_descendant` with the standard fuel. -/
def isDescendant (cats : List Cat) (parentId tid : Nat) : Bool :=
  isDescAux cats tid (cats.length + 1) parentId

/-- `CategoryManager.create_category` on the category table (with the
primary-key counter); the boolean reports whether the operation committed. -/
def createCategoryCore (cats : List Cat) (nextId : Nat) (argsText : String) :
    List Cat × Nat × String × Bool :=
  let keep : String → List Cat × Nat × String × Bool := fun msg => (cats, nextId, msg, false)
  match catTokenize argsText with
  | [] => keep "❌ Debes indicar un nombre. Ejemplo: cat c Transporte urbano code=trans"
  | tokens =>
    let so := splitNameAndOptions tokens
    if so.1.isEmpty then keep "❌ Debes indicar un nombre."
    else
      let name := stripPy (" ".intercalate so.1)
      if name = "" then keep "❌ Debes indicar un nombre."
      else
        let codeOption := pickOption so.2 ["code", "short", "alias"]
        let desiredCode := if shouldClear codeOption then none else normalizeCode codeOption
        let emoji := if shouldClear (optGet so.2 "emoji") then none else optGet so.2 "emoji"
        let parentOption := optGet so.2 "parent"
        let parentRes : Except String (Option Cat) :=
          match parentOption with
          | some po =>
            if po ≠ "" ∧ !shouldClear (some po) then
              match getCategoryByIdentifier cats po with
              | some p => Except.ok (some p)
              | none => Except.error ("❌ No se encontró la categoría padre \x27" ++ po ++ "\x27.")
            else Except.ok none
          | none => Except.ok none
        match parentRes with
        | Except.error msg => keep msg
        | Except.ok parent =>
          if categoryExists cats name parent none then
            keep "❌ Ya existe una categoría con ese nombre."
          else
            match desiredCode with
            | some dc =>
              if (getCategoryByShort cats dc).isSome then
                keep ("❌ El código \x27" ++ dc ++ "\x27 ya está en uso.")
              else
                let row : Cat := ⟨nextId, name, some dc, emoji, parent.map (·.id), false⟩
                (cats ++ [row], nextId + 1,
                  "✅ Categoría creada: *" ++ name ++ "* [" ++ dc ++ "]" ++
                    (parent.map (fun p => " (hija de " ++ p.name ++ ")")).getD "" ++ ".",
                  true)
            | none =>
              let sn := generateShortName cats name
              let row : Cat := ⟨nextId, name, some sn, emoji, parent.map (·.id), false⟩
              (cats ++ [row], nextId + 1,
                "✅ Categoría creada: *" ++ name ++ "* [" ++ sn ++ "]" ++
                  (parent.map (fun p => " (hija de " ++ p.name ++ ")")).getD "" ++ ".",
                true)

/-- Parent-update step of `update_category` (runs last, on the session
state left by the earlier name/code/emoji steps). -/
def updateParentStep (cats : List Cat) (targetId : Nat) (updates : List String)
    (opts : List (String × String)) : List Cat × List String × Option String :=
  match optGet opts "parent" with
  | none => (cats, updates, none)
  | some po =>
    if shouldClear (some po) then
      (setCat cats targetId (fun c => { c with parentId := none }),
        updates ++ ["sin categoría padre"], none)
    else
      match getCategoryByIdentifier cats po with
      | none => (cats, updates, some ("❌ No se encontró la categoría padre \x27" ++ po ++ "\x27."))
      | some parent =>
        if parent.id == targetId then
          (cats, updates, some "❌ Una categoría no puede ser su propia padre.")
        else if isDescendant cats parent.id targetId then
          (cats, updates, some "❌ Se detectó un ciclo en la jerarquía de categorías.")
        else
          (setCat cats targetId (fun c => { c with parentId := some parent.id }),
            updates ++ ["padre=\x27" ++ parent.name ++ "\x27"], none)

/-- Code-update step of `update_category`. -/
def updateCodeStep (cats : List Cat) (targetId : Nat) (updates : List String)
    (opts : List (String × String)) : List Cat × List String × Option String :=
  match pickOption opts ["code", "short", "alias"] with
  | none => (cats, updates, none)
  | some co =>
    if shouldClear (some co) then
      (setCat cats targetId (fun c => { c with shortName := none }),
        updates ++ ["código eliminado"], none)
    else
      match normalizeCode (some co) with
      | none => (cats, updates, none)
      | some nc =>
        match getCategoryByShort cats nc with
        | some existing =>
          if existing.id ≠ targetId then
            (cats, updates, some ("❌ El código \x27" ++ nc ++ "\x27 ya está en uso."))
          else
            (setCat cats targetId (fun c => { c with shortName := some nc }),
              updates ++ ["código=\x27" ++ nc ++ "\x27"], none)
        | none =>
          (setCat cats targetId (fun c => { c with shortName := some nc }),
            updates ++ ["código=\x27" ++ nc ++ "\x27"], none)

/-- Emoji-update step of `update_category`. -/
def updateEmojiStep (cats : List Cat) (targetId : Nat) (updates : List String)
    (opts : List (String × String)) : List Cat × List String :=
  match optGet opts "emoji" with
  | none => (cats, updates)
  | some eo =>
    if shouldClear (some eo) then
      (setCat cats targetId (fun c => { c with emoji := none }), updates ++ ["emoji eliminado"])
    else
      (setCat cats targetId (fun c => { c with emoji := some eo }),
        updates ++ ["emoji=\x27" ++ eo ++ "\x27"])

/-- Name-update step of `update_category` (runs first, inline in the
Python method). -/
def updateNameStep (cats : List Cat) (target : Cat)
    (so : List String × List (String × String)) :
    List Cat × List String × Option String :=
  if so.1.isEmpty then (cats, [], none)
  else
    let newName := stripPy (" ".intercalate so.1)
    if newName ≠ "" ∧ newName ≠ target.name then
      if categoryExists cats newName (target.parentId.bind (catById cats)) (some target.id) then
        (cats, [], some "❌ Ya existe otra categoría con ese nombre.")
      else
        (setCat cats target.id (fun c => { c with name := newName }),
          ["nombre=\x27" ++ newName ++ "\x27"], none)
    else (cats, [], none)

/-- `CategoryManager.update_category` on the category table.  Field
mutations are session mutations: an early rejection returns the session
state as mutated so far (without its own commit — the enclosing message
transaction commits it when the reply is delivered normally); the boolean
reports whether `update_category` itself committed. -/
def updateCategoryCore (cats : List Cat) (argsText : String) :
    List Cat × String × Bool :=
  match catTokenize argsText with
  | [] => (cats, "❌ Debes indicar la categoría a actualizar. Ejemplo: cat u comida name=Comidas code=food", false)
  | identifier :: rest =>
    match getCategoryByIdentifier cats identifier with
    | none => (cats, "❌ No se encontró la categoría \x27" ++ identifier ++ "\x27.", false)
    | some target =>
      if target.isSystem then (cats, "❌ No puedes editar categorías del sistema.", false)
      else
        let so := splitNameAndOptions rest
        let ns := updateNameStep cats target so
        match ns.2.2 with
        | some msg => (ns.1, msg, false)
        | none =>
          let cs := updateCodeStep ns.1 target.id ns.2.1 so.2
          match cs.2.2 with
          | some msg => (cs.1, msg, false)
          | none =>
            let es := updateEmojiStep cs.1 target.id cs.2.1 so.2
            let ps := updateParentStep es.1 target.id es.2 so.2
            match ps.2.2 with
            | some msg => (ps.1, msg, false)
            | none =>
              if ps.2.1.isEmpty then (ps.1, "ℹ️ No se detectaron cambios.", false)
              else (ps.1, "✅ Categoría actualizada (" ++ ", ".intercalate ps.2.1 ++ ").", true)

/-- `CategoryManager.delete_category` on the category and expense tables. -/
def deleteCategoryCore (cats : List Cat) (expenses : List ExpenseRow)
    (argsText : String) : List Cat × String × Bool :=
  match catTokenize argsText with
  | [] => (cats, "❌ Debes indicar la categoría a eliminar. Ejemplo: cat d comida", false)
  | identifier :: _ =>
    match getCategoryByIdentifier cats identifier with
    | none => (cats, "❌ No se encontró la categoría \x27" ++ identifier ++ "\x27.", false)
    | some category =>
      if category.isSystem then (cats, "❌ No puedes eliminar categorías del sistema.", false)
      else if cats.any (fun c => c.parentId == some category.id) then
        (cats, "❌ Esta categoría tiene subcategorías. Elimínalas o muévelas primero.", false)
      else if expenses.any (fun e => e.categoryId == some category.id) then
        (cats, "❌ No puedes eliminar una categoría con gastos asociados.", false)
      else
        (cats.eraseP (fun c => c.id == category.id),
          "🗑️ Categoría eliminada: *" ++ category.name ++ "*" ++
            ((category.shortName.bind (fun code => if code = "" then none else some (" [" ++ code ++ "]"))).getD "") ++ ".",
          true)

/-- `CategoryManager.show_info`. -/
def showInfo (cats : List Cat) (expenses : List ExpenseRow) (argsText : String) : String :=
  match catTokenize argsText with
  | [] => "❌ Debes indicar la categoría. Ejemplo: cat info comida"
  | identifier :: _ =>
    match getCategoryByIdentifier cats identifier with
    | none => "❌ No se encontró la categoría \x27" ++ identifier ++ "\x27."
    | some category =>
      let parentName := ((category.parentId.bind (catById cats)).map (·.name)).getD "Sin padre"
      let scope := if category.isSystem then "Sistema" else "Personal"
      let shortText := (category.shortName.bind
        (fun s => if s = "" then none else some s)).getD "Sin código"
      let emojiText := (category.emoji.bind
        (fun s => if s = "" then none else some s)).getD "Sin emoji"
      let cnt := (expenses.filter (fun e => e.categoryId == some category.id)).length
      "\n".intercalate
        ["📘 *Detalle de categoría*", "Nombre: " ++ category.name,
         "Código: " ++ shortText, "Emoji: " ++ emojiText, "Padre: " ++ parentName,
         "Ámbito: " ++ scope, "Gastos asociados: " ++ Nat.repr cnt]

/-- `CategoryManager.list_categories`. -/
def listCategoriesStr (cats : List Cat) : String :=
  let sorted := cats.mergeSort (fun a b =>
    if a.isSystem ≠ b.isSystem then a.isSystem
    else decide (pyLower a.name ≤ pyLower b.name))
  if sorted.isEmpty then "No hay categorías registradas."
  else
    let fmt : Cat → String := fun c =>
      let parts :=
        (match c.emoji with
          | some e => if e = "" then [] else [e]
          | none => []) ++ [c.name] ++
        (match c.shortName with
          | some sn => if sn = "" then [] else ["[" ++ sn ++ "]"]
          | none => []) ++
        (match c.parentId.bind (catById cats) with
          | some p =>
            ["↳ " ++ ((p.shortName.bind (fun s => if s = "" then none else some s)).getD p.name)]
          | none => [])
      " ".intercalate parts
    let systemLines := (sorted.filter (·.isSystem)).map fmt
    let customLines := (sorted.filter (fun c => !c.isSystem)).map fmt
    let sections := ["📂 *Categorías disponibles:*"] ++
      (if systemLines.isEmpty then [] else ["🔒 *Sistema:*\n" ++ "\n".intercalate systemLines]) ++
      (if customLines.isEmpty then [] else ["🧩 *Personalizadas:*\n" ++ "\n".intercalate customLines])
    "\n\n".intercalate sections

/-- `CategoryManager.show_help`. -/
def catHelpText : String :=
  "📚 *Comandos de categorías:*" ++
    "\n• `cat` o `cat list` — listar categorías" ++
    "\n• `cat c <nombre> [code=alias] [emoji=📁] [parent=codigo]` — crear" ++
    "\n• `cat u <id> [name=Nuevo nombre] [code=nuevo] [emoji=📁] [parent=codigo|-]` — actualizar" ++
    "\n• `cat d <id>` — eliminar (sin gastos ni subcategorías)" ++
    "\n• `cat info <id>` — detalle de una categoría"

/-- `CategoryManager.handle` on the session: dispatch the sub-action and
apply the resulting table mutations to `pending`, committing when the
sub-operation commits. -/
def categoryManagerHandle (commandText : String) (s : Sess) : Sess × String :=
  let ct := stripPy commandText
  if ct = "" then (s, listCategoriesStr s.pending.categories)
  else
    match catTokenize ct with
    | [] => (s, listCategoriesStr s.pending.categories)
    | t0 :: _ =>
      let action := pyLower t0
      let remainder := if t0.length < ct.length then stripPy (ct.drop t0.length) else ""
      let applyCats : List Cat × Nat × String × Bool → Sess × String := fun r =>
        let pending' := { s.pending with categories := r.1, nextCatId := r.2.1 }
        (if r.2.2.2 then commitS ⟨s.committed, pending'⟩ else ⟨s.committed, pending'⟩, r.2.2.1)
      if (["list", "l", "ls", "show"] : List String).contains action then
        (s, listCategoriesStr s.pending.categories)
      else if (["create", "c", "add", "+"] : List String).contains action then
        applyCats (createCategoryCore s.pending.categories s.pending.nextCatId remainder)
      else if (["update", "u", "edit", "rename"] : List String).contains action then
        let r := updateCategoryCore s.pending.categories remainder
        let pending' := { s.pending with categories := r.1 }
        (if r.2.2 then commitS ⟨s.committed, pending'⟩ else ⟨s.committed, pending'⟩, r.2.1)
      else if (["delete", "d", "remove", "rm", "del"] : List String).contains action then
        let r := deleteCategoryCore s.pending.categories s.pending.expenses remainder
        let pending' := { s.pending with categories := r.1 }
        (if r.2.2 then commitS ⟨s.committed, pending'⟩ else ⟨s.committed, pending'⟩, r.2.1)
      else if (["info", "i", "details"] : List String).contains action then
        (s, showInfo s.pending.categories s.pending.expenses remainder)
      else if (["help", "h", "?"] : List String).contains action then
        (s, catHelpText)
      else (s, "❌ Acción de categoría no reconocida. Usa \x27cat help\x27 para ver opciones.")

/-! `MessageHandler` (`app/handlers/message_handler.py`). -/

/-- A normalized inbound event (`app/webhooks/models.py` `MessageEvent`). -/
structure MessageEvent where
  from_ : String
  messageId : String
  text : String
  type : String
  interactive : Option Interactive
deriving DecidableEq

/-- The ambient clocks of one `handle` call: `datetime.now()` (local, used
by the date parser and the summaries) and the UTC epoch seconds used by the
rate limiter (`datetime.utcnow()`) and `last_seen_at`. -/
structure Env where
  nowLocal : PyDateTime
  nowUtcSec : Int
deriving DecidableEq

/-- The dedup query `MessageLog.filter_by(provider, provider_message_id)`. -/
def findLogRow (db : DB) (prov mid : String) : Option LogRow :=
  db.logs.find? (fun l => l.provider == prov && l.providerMessageId == mid)

/-- Mutation of the `message_log` row status (and error when given). -/
def setLogStatus (db : DB) (mid st : String) (err : Option String) : DB :=
  { db with
      logs := db.logs.map (fun l =>
        if l.provider == "meta" && l.providerMessageId == mid then
          { l with status := st, error := err <|> l.error }
        else l) }

/-- `UserManager.get_or_create_user` (commits on creation). -/
def getOrCreateUser (phone : String) (s : Sess) : UserRow × Sess :=
  match s.pending.users.find? (fun u => u.phone == phone) with
  | some u => (u, s)
  | none =>
    let u : UserRow := ⟨s.pending.nextUserId, phone, false, "CLP", none⟩
    let pending' :=
      { s.pending with
          users := s.pending.users ++ [u],
          nextUserId := s.pending.nextUserId + 1 }
    (u, commitS ⟨s.committed, pending'⟩)

/-- `user.last_seen_at = datetime.now(timezone.utc)` (session mutation). -/
def setLastSeen (db : DB) (uid : Nat) (t : Int) : DB :=
  { db with
      users := db.users.map (fun u =>
        if u.id == uid then { u with lastSeenSec := some t } else u) }

/-- `MessageHandler._get_tutorial_text` (static help text). -/
def tutorialText : String :=
  "📚 *¡Bienvenido al Bot de Gastos!*\n\n🎯 *Cómo registrar un gasto:*\n" ++
  "Envía: `[monto] [categoría] [descripción] [fecha] [@etiquetas]`\n\n" ++
  "📝 *Ejemplos:*\n• `15000 comida almuerzo` - Gasto básico\n" ++
  "• `25000 transporte uber 15/03` - Con fecha\n" ++
  "• `8500 comida café @trabajo` - Con etiqueta\n" ++
  "• `12.50 comida sandwich` - En USD (con decimales)\n\n" ++
  "📅 *Formatos de fecha:*\n• `15/03` o `15-03` (día/mes del año actual)\n" ++
  "• `15/03/2024` o `15-03-2024` (fecha completa)\n\n" ++
  "🏷️ *Etiquetas:*\n• Agregar al gasto: `@trabajo @personal @urgente`\n\n" ++
  "📂 *Categorías:*\n• Ver todas: `cat`, `categoria`, `categories` o `categorias`\n" ++
  "• Gestionar: `cat help`, `cat c <nombre>`, `cat u <id>`, `cat d <id>`\n\n" ++
  "📊 *Ver gastos:*\n• Todos: `gastos` o `g`\n• Por mes: `gastos enero` o `gastos 3`\n" ++
  "• Con etiquetas: `gastos @trabajo`\n" ++
  "• Con opciones: `gastos cat tags` (mostrar categorías y etiquetas)\n\n" ++
  "📈 *Resúmenes:*\n• Hoy: `resumen` o `resumen hoy`\n• Semanal: `resumen semana`\n" ++
  "• Mensual: `resumen mes` (mes actual)\n" ++
  "• Mes específico: `resumen mes enero` o `resumen mes 3`\n\n" ++
  "🔍 *Buscar gastos:*\n• Por descripción: `buscar almuerzo`\n" ++
  "• Por categoría: `buscar comida`\n• Por monto: `buscar 5000`\n\n" ++
  "🗑️ *Eliminar último gasto:*\n• `borrar`, `delete`, `eliminar` o `undo`\n\n" ++
  "🏷️ *Gestión de etiquetas:*\n• Ver etiquetas: `tags` o `etiquetas`\n" ++
  "• Crear etiqueta: `tags create nombre`\n• Eliminar etiqueta: `tags delete nombre`\n\n" ++
  "💬 *Comandos principales:*\n• `tutorial` / `ayuda` / `help` - Esta ayuda\n" ++
  "• `cat` - Ver categorías\n• `gastos` / `g` - Listar gastos\n" ++
  "• `resumen` - Resumen diario\n• `resumen mes [mes]` - Resumen mensual\n" ++
  "• `buscar [término]` - Buscar gastos\n• `borrar` - Eliminar último gasto\n" ++
  "• `tags` - Ver/gestionar etiquetas\n\n" ++
  "✅ *Confirmación de gastos:*\n" ++
  "Después de enviar un gasto, recibirás botones para *Confirmar* o *Rechazar*.\n\n" ++
  "💡 *Tips útiles:*\n• Si no especificas categoría, usa `x`\n" ++
  "• Las fechas sin año asumen el año actual\n" ++
  "• Los montos con decimales se consideran USD\n" ++
  "• Puedes usar múltiples etiquetas: `@trabajo @urgente`\n" ++
  "• Los resúmenes muestran totales y estadísticas detalladas\n" ++
  "• La búsqueda funciona en descripciones, categorías y montos\n\n" ++
  "🚀 ¡Empieza a registrar tus gastos ahora! 💸"

/-- `MessageHandler._handle_text_message`: route the normalized text by its
first token; unmatched tokens fall through to expense creation (whose reply
is sent by the expense manager itself, so the dispatcher returns `none`). -/
def handleTextMessage (user : UserRow) (now : PyDateTime) (text : String) (s : Sess) :
    Sess × List OutMsg × Except String (Option String) :=
  let strippedText := stripPy text
  if strippedText = "" then (s, [], Except.ok (some "❌ El mensaje está vacío."))
  else
    let parsedText := pyLower strippedText
    match splitWs parsedText with
    | [] => (s, [], Except.ok (some "❌ El mensaje está vacío."))
    | code :: items1 =>
      if (["cat", "category", "categoria", "categories", "categorias"] : List String).contains code then
        let firstWord := ((splitWs strippedText).head?).getD ""
        let remainder := stripPy (strippedText.drop firstWord.length)
        let r := categoryManagerHandle remainder s
        (r.1, [], Except.ok (some r.2))
      else if (["tag", "tags", "etiqueta", "etiquetas"] : List String).contains code then
        match items1.head? with
        | some action => (s, [], Except.ok (some (tagAction user s.pending (pyLower action))))
        | none => (s, [], Except.ok (some (listTags user s.pending)))
      else if (["tutorial", "ayuda", "help"] : List String).contains code then
        (s, [], Except.ok (some tutorialText))
      else if (["gastos", "g"] : List String).contains code then
        match listExpenses user s.pending now parsedText with
        | Except.ok r => (s, [], Except.ok (some r))
        | Except.error e => (s, [], Except.error e)
      else if (["resumen", "summary", "total"] : List String).contains code then
        match getSummary user s.pending now parsedText with
        | Except.ok r => (s, [], Except.ok (some r))
        | Except.error e => (s, [], Except.error e)
      else if (["borrar", "delete", "eliminar", "undo", "d"] : List String).contains code then
        let r := deleteLastExpense user s
        (r.1, [], Except.ok (some r.2))
      else if (["buscar", "search", "encontrar", "find", "f"] : List String).contains code then
        let searchTerm := if items1.isEmpty then "" else " ".intercalate items1
        match searchExpenses user s.pending searchTerm with
        | Except.ok r => (s, [], Except.ok (some r))
        | Except.error e => (s, [], Except.error e)
      else
        let r := createExpenseFromText user now parsedText s
        (r.1, r.2.1, (r.2.2).map (fun _ => none))

/-- The outcome of one `MessageHandler.handle` call: the final committed
database, the limiter state, the outbound deliveries in order, and the
re-raised exception (`str(e)`) when the processing transaction failed. -/
structure HandleResult where
  db : DB
  rl : RLState
  out : List OutMsg
  exc : Option String
deriving DecidableEq

/-- The dispatch of `handle`: interactive events go to the expense
manager's interactive handler (whose reply payload is `None`), everything
else to `_handle_text_message`. -/
def dispatchStep (user : UserRow) (env : Env) (ev : MessageEvent) (s3 : Sess) :
    Sess × List OutMsg × Except String (Option String) :=
  if ev.type == "interactive" && ev.interactive.isSome then
    let r := handleInteractiveResponse user (ev.interactive.getD ⟨"", none⟩) s3
    (r.1, r.2.1, (r.2.2).map (fun _ => none))
  else handleTextMessage user env.nowLocal ev.text s3

/-- The tail of `handle` after the dispatch: on success commit the
`processed` status and deliver the textual reply when there is one; on an
exception roll back, commit the `failed` status with the captured error,
send the generic failure notice and re-raise. -/
def finishStep (ev : MessageEvent) (rl2 : RLState)
    (disp : Sess × List OutMsg × Except String (Option String)) : HandleResult :=
  match disp.2.2 with
  | Except.ok respOpt =>
    let responseOut : List OutMsg := match respOpt with
      | some r => [OutMsg.text ev.from_ r]
      | none => []
    let s5 := commitS ⟨disp.1.committed, setLogStatus disp.1.pending ev.messageId "processed" none⟩
    ⟨s5.committed, rl2, disp.2.1 ++ responseOut, none⟩
  | Except.error e =>
    let s4 := rollbackS disp.1
    let s5 := commitS ⟨s4.committed, setLogStatus s4.pending ev.messageId "failed" (some e)⟩
    ⟨s5.committed, rl2,
      disp.2.1 ++ [OutMsg.text ev.from_ "Ocurrió un error procesando tu mensaje. Intenta nuevamente."],
      some e⟩

/-- `MessageHandler.handle`: dedup lookup by `("meta", provider_message_id)`
with silent early return; insertion of the `received` log row with its own
commit; user resolution; rate-limit and blocked gates (each committing a
terminal status); `last_seen_at` update; dispatch; on success the
`processed` status commit, on any exception a rollback, the `failed` status
commit with the captured error, a generic failure notice, and a re-raise. -/
def handle (env : Env) (ev : MessageEvent) (db : DB) (rl : RLState) : HandleResult :=
  match findLogRow db "meta" ev.messageId with
  | some _ => ⟨db, rl, [], none⟩
  | none =>
    let logRow : LogRow := ⟨"meta", ev.messageId, ev.from_, "in", ev.text, "received", none⟩
    let s1 : Sess := commitS ⟨db, { db with logs := db.logs ++ [logRow] }⟩
    let ur := getOrCreateUser ev.from_ s1
    let user := ur.1
    let s2 := ur.2
    let rc := rateLimiterCheck env.nowUtcSec user.id rl
    if !rc.1 then
      let s3 := commitS ⟨s2.committed, setLogStatus s2.pending ev.messageId "rate_limited" none⟩
      ⟨s3.committed, rc.2, [OutMsg.text ev.from_ "Demasiados mensajes. Espera un momento."], none⟩
    else if user.isBlocked then
      let s3 := commitS ⟨s2.committed, setLogStatus s2.pending ev.messageId "blocked" none⟩
      ⟨s3.committed, rc.2, [OutMsg.text ev.from_ "Tu acceso está bloqueado. Contacta soporte."], none⟩
    else
      finishStep ev rc.2 (dispatchStep user env ev
        ⟨s2.committed, setLastSeen s2.pending user.id env.nowUtcSec⟩)

/-! Derived notions used by the verification statements. -/

/-- Number of `message_log` rows with the `("meta", mid)` dedup key. -/
def logKeyCount (db : DB) (mid : String) : Nat :=
  (db.logs.filter (fun l => l.provider == "meta" && l.providerMessageId == mid)).length

/-- Both session components carry exactly the log table `L` (the state of
the logs between the `received` insert and the final status commit). -/
def LogsEq (L : List LogRow) (s : Sess) : Prop :=
  s.committed.logs = L ∧ s.pending.logs = L

/-- The id-to-parent map of the category table. -/
def parentMap (cats : List Cat) : List (Nat × Option Nat) :=
  cats.map (fun c => (c.id, c.parentId))

/-- The parent id of the category with id `i` (ORM `category.parent`). -/
def parentOf (cats : List Cat) (i : Nat) : Option Nat :=
  (catById cats i).bind (·.parentId)

/-- One parent edge of the category graph. -/
def StepRel (cats : List Cat) (i j : Nat) : Prop :=
  parentOf cats i = some j

/-- A nonempty parent-chain path from `a` to `b` through the intermediate
nodes `l` (in order). -/
def PathP (cats : List Cat) : Nat → List Nat → Nat → Prop
  | a, [], b => StepRel cats a b
  | a, x :: l, b => StepRel cats a x ∧ PathP cats x l b

/-- `b` is a strict ancestor-chain successor of `a`. -/
def ReachesP (cats : List Cat) (a b : Nat) : Prop :=
  ∃ l, PathP cats a l b

/-- The category parent graph has no cycle. -/
def AcyclicP (cats : List Cat) : Prop :=
  ∀ i, ¬ ReachesP cats i i

/-- Primary-key uniqueness of the category table. -/
def catIdsNodup (cats : List Cat) : Prop :=
  (cats.map (·.id)).Nodup

/-- Decimal digits grouped in threes from the right with `.` separators
(the Chilean thousands rendering). -/
def dotGrouped (n : Nat) : String :=
  String.mk ((group3Rev '.' (natDigitChars n).reverse).reverse)

/-- A burst of `n` rate-limiter checks of user 7 at time 0 from a fresh
limiter. -/
def rlBurst (n : Nat) : RLState :=
  (List.range n).foldl (fun st _ => (rateLimiterCheck 0 7 st).2) []

/-! Concrete fixtures used by counterexamples and witnesses. -/

/-- A registered, unblocked user with the default CLP currency. -/
def userFix : UserRow := ⟨1, "56911111111", false, "CLP", none⟩

/-- A `comida` category with short code `com`. -/
def comidaFix : Cat := ⟨1, "comida", some "com", none, none, true⟩

/-- A database with one user and the `comida` category. -/
def dbFix : DB := ⟨[userFix], [comidaFix], [], [], [], 2, 1, 1, 2, 0⟩

/-- Clocks: local 2026-10-12 09:30:00, epoch second 1000. -/
def envFix : Env := ⟨⟨2026, 10, 12, 9, 30, 0⟩, 1000⟩

/-- A fresh inbound text event with a message id not yet logged. -/
def evFix : MessageEvent := ⟨"56911111111", "m9", "hola", "text", none⟩

/-- A category chain `a ← b ← c` (`c`'s parent is `b`, `b`'s parent is `a`). -/
def catsAbcFix : List Cat :=
  [⟨1, "a", none, none, none, false⟩,
   ⟨2, "b", none, none, some 1, false⟩,
   ⟨3, "c", none, none, some 2, false⟩]

/-- An already-resolved (rejected) expense of the fixture user. -/
def expenseRejFix : ExpenseRow :=
  ⟨5, 1, 100, "CLP", none, "d", "rejected", [], ⟨2026, 1, 1, 0, 0, 0⟩, 0, "raw", "56911111111"⟩

/-- A database holding only `expenseRejFix`. -/
def dbExpFix : DB := ⟨[userFix], [], [], [expenseRejFix], [], 2, 1, 6, 1, 1⟩

/-! Theorems.  General lemmas first, then one theorem per specification
claim (with counterexamples and witnesses where required). -/

/-- Every character produced by the digit renderer is a decimal digit. -/
theorem mem_natDigitsAux (fuel : Nat) : ∀ n c, c ∈ natDigitsAux fuel n →
    ∃ k, k < 10 ∧ c = digitChar k := by
  induction fuel with
  | zero => intro n c h; simp [natDigitsAux] at h
  | succ fuel ih =>
    intro n c h
    simp only [natDigitsAux] at h
    split at h
    · simp at h
      exact ⟨n, by omega, h⟩
    · rcases List.mem_cons.mp h with h1 | h2
      · exact ⟨n % 10, by omega, h1⟩
      · exact ih _ _ h2

/-- Every character of `natDigitChars n` is a decimal digit. -/
theorem mem_natDigitChars (n : Nat) (c : Char) (h : c ∈ natDigitChars n) :
    ∃ k, k < 10 ∧ c = digitChar k :=
  mem_natDigitsAux (n + 1) n c (List.mem_reverse.mp h)

/-- Digit characters are none of the separator characters. -/
theorem digitChar_ne (k : Nat) (h : k < 10) :
    digitChar k ≠ ',' ∧ digitChar k ≠ '.' ∧ digitChar k ≠ 'X' ∧ digitChar k ≠ '$' := by
  interval_cases k <;> exact ⟨by decide, by decide, by decide, by decide⟩

/-- Mapping a character function commutes with separator grouping. -/
theorem group3Rev_map (f : Char → Char) (sep : Char) (l : List Char) :
    (group3Rev sep l).map f = group3Rev (f sep) (l.map f) := by
  induction l using group3Rev.induct sep with
  | case1 => simp [group3Rev]
  | case2 a => simp [group3Rev]
  | case3 a b => simp [group3Rev]
  | case4 a b c => simp [group3Rev]
  | case5 a b c d rest ih =>
    cases d with
    | nil => exact absurd rfl rest
    | cons x xs =>
      simp only [group3Rev, List.map_cons]
      simp only [List.map_cons] at ih
      rw [ih]

/-- A map that fixes every element is the identity. -/
theorem map_fixes {α : Type} (f : α → α) (l : List α) (h : ∀ c ∈ l, f c = c) :
    l.map f = l := by
  induction l with
  | nil => rfl
  | cons a l ih =>
    simp only [List.map_cons, h a (List.mem_cons_self a l),
      ih (fun c hc => h c (List.mem_cons_of_mem a hc))]

/-- The separator-swap map fixes decimal digit strings. -/
theorem map_fixes_digits (f : Char → Char) (hf : ∀ c, c ≠ ',' → c ≠ '.' → c ≠ 'X' → f c = c)
    (n : Nat) : (natDigitChars n).map f = natDigitChars n := by
  refine map_fixes f _ (fun c hc => ?_)
  obtain ⟨k, hk, rfl⟩ := mem_natDigitChars n c hc
  obtain ⟨h1, h2, h3, _⟩ := digitChar_ne k hk
  exact hf _ h1 h2 h3

/-- `ratTrunc` of a nonnegative rational is nonnegative. -/
theorem ratTrunc_nonneg (q : Rat) (h : 0 ≤ q) : 0 ≤ ratTrunc q := by
  simp only [ratTrunc, if_pos h]
  exact Int.le_floor.mpr (by exact_mod_cast h)

/-- `roundHalfEven` of a nonnegative rational is nonnegative. -/
theorem roundHalfEven_nonneg (q : Rat) (h : 0 ≤ q) : 0 ≤ roundHalfEven q := by
  have hf : (0 : Int) ≤ Int.floor q := Int.le_floor.mpr (by exact_mod_cast h)
  simp only [roundHalfEven]
  split
  · exact hf
  · split
    · omega
    · split <;> omega

/-- CLP formatting: the comma grouping followed by the `,`-to-`.`
replacement is exactly dot grouping of the truncated integer value. -/
theorem clpFormatEq (q : Rat) (h : 0 ≤ q) :
    parseMoneyText q "CLP" = "$" ++ dotGrouped (ratTrunc q).toNat := by
  have ht : 0 ≤ ratTrunc q := ratTrunc_nonneg q h
  have habs : (ratTrunc q).natAbs = (ratTrunc q).toNat := by omega
  have hneg : ¬ ratTrunc q < 0 := by omega
  apply String.ext
  simp only [parseMoneyText, pyFormatIntComma, strReplaceChar, dotGrouped]
  rw [if_neg (show ¬ ("CLP" : String) = "USD" by decide)]
  simp only [eq_self_iff_true, if_true, if_neg hneg, habs, String.data_append, String.toList]
  show List.map _ (['$'] ++ ([] ++ _)) = ['$'] ++ _
  simp only [List.nil_append, List.cons_append, List.map_cons]
  rw [show (if ('$' == ',') = true then '.' else '$') = '$' from by decide]
  rw [List.map_reverse, group3Rev_map, List.map_reverse]
  rw [show (if ((',' == ',') = true) then '.' else ',') = '.' from rfl]
  rw [map_fixes_digits (fun c => if (c == ',') = true then '.' else c)
    (fun c h1 _ _ => by simp [h1]) ((ratTrunc q).toNat)]

set_option maxHeartbeats 1000000 in
/-- USD formatting: the separator-swapping replacement chain turns the
`1,234.56` rendering into `1.234,56`. -/
theorem usdFormatEq (q : Rat) (h : 0 ≤ q) :
    parseMoneyText q "USD" =
      "$" ++ dotGrouped ((roundHalfEven (q * 100)).toNat / 100) ++ "," ++
        pad2 ((roundHalfEven (q * 100)).toNat % 100) := by
  have hc : 0 ≤ roundHalfEven (q * 100) := roundHalfEven_nonneg _ (by positivity)
  have habs : (roundHalfEven (q * 100)).natAbs = (roundHalfEven (q * 100)).toNat := by omega
  have hneg : ¬ roundHalfEven (q * 100) < 0 := by omega
  have hdnn : ¬ ((((roundHalfEven (q * 100)).toNat / 100 : Nat) : Int) < 0) := by omega
  have hg : ∀ c : Char, c ≠ ',' → c ≠ '.' → c ≠ 'X' →
      ((fun c => if (c == 'X') = true then '.' else c) ∘
        (fun c => if (c == '.') = true then ',' else c) ∘
        (fun c => if (c == ',') = true then 'X' else c)) c = c := by
    intro c h1 h2 h3
    simp [Function.comp, h1, h2, h3]
  have hpad : ∀ m : Nat,
      List.map ((fun c => if (c == 'X') = true then '.' else c) ∘
        (fun c => if (c == '.') = true then ',' else c) ∘
        (fun c => if (c == ',') = true then 'X' else c)) (pad2 m).data = (pad2 m).data := by
    intro m
    refine map_fixes _ _ (fun c hcm => ?_)
    simp only [pad2] at hcm
    split at hcm
    · rcases List.mem_cons.mp (show c ∈ '0' :: natDigitChars m from hcm) with h0 | hd
      · subst h0; decide
      · obtain ⟨k, hk, rfl⟩ := mem_natDigitChars _ _ hd
        obtain ⟨h1, h2, h3, _⟩ := digitChar_ne k hk
        exact hg _ h1 h2 h3
    · obtain ⟨k, hk, rfl⟩ := mem_natDigitChars _ _ (show c ∈ natDigitChars m from hcm)
      obtain ⟨h1, h2, h3, _⟩ := digitChar_ne k hk
      exact hg _ h1 h2 h3
  apply String.ext
  simp only [parseMoneyText, pyFormatFloat2Comma, pyFormatIntComma, strReplaceChar]
  simp only [eq_self_iff_true, if_true, habs, if_neg hneg, if_neg hdnn,
    Int.natAbs_ofNat, String.data_append, String.toList]
  show List.map _ (List.map _ (List.map _ (['$'] ++ ([] ++ ([] ++ _ ++ ['.'] ++ _))))) =
    ['$'] ++ _ ++ [','] ++ _
  simp only [List.nil_append, List.cons_append, List.map_cons, List.map_append,
    List.map_map]
  rw [show ((if ('$' == ',') = true then 'X' else '$')) = '$' from by decide]
  rw [show ((if ('$' == '.') = true then ',' else '$')) = '$' from by decide]
  rw [show ((if ('$' == 'X') = true then '.' else '$')) = '$' from by decide]
  rw [List.map_reverse, group3Rev_map, List.map_reverse]
  rw [map_fixes_digits _ hg (((roundHalfEven (q * 100)).toNat / 100))]
  rw [hpad]
  simp [dotGrouped]

/-- C7 counterexample: at 1200.5 USD the code renders `$1.200,50` — `.` as
thousands separator and `,` as decimal separator — not the `$1,200.50` that
the claim (and the docstring of `parse_money_text`) describe. -/
theorem c7_counterexample :
    parseMoneyText (2401 / 2 : Rat) "USD" = "$1.200,50" ∧
      ("$1.200,50" : String) ≠ "$1,200.50" := by
  constructor
  · rw [usdFormatEq _ (by norm_num)]
    have hval : roundHalfEven ((2401 / 2 : Rat) * 100) = 120050 := by
      have harith : ((2401 : Rat) / 2 * 100) = ((120050 : Int) : Rat) := by norm_num
      simp only [roundHalfEven, harith, Int.floor_intCast]
      norm_num
    rw [hval]
    decide
  · decide

/-- C7 (amended): for every nonnegative amount, CLP renders as the
truncated integer with `.` thousands separators, a `$` prefix and no
decimals, and USD renders with `.` as thousands separator, `,` as decimal
separator, two decimal places (ties-to-even cents) and a `$` prefix. -/
theorem c7_money_formatting (q : Rat) (h : 0 ≤ q) :
    parseMoneyText q "CLP" = "$" ++ dotGrouped (ratTrunc q).toNat ∧
    parseMoneyText q "USD" =
      "$" ++ dotGrouped ((roundHalfEven (q * 100)).toNat / 100) ++ "," ++
        pad2 ((roundHalfEven (q * 100)).toNat % 100) :=
  ⟨clpFormatEq q h, usdFormatEq q h⟩

/-- C7 witness: the amended theorem applied at 1200.5 CLP. -/
theorem c7_money_formatting_witness :
    (0 : Rat) ≤ 2401 / 2 ∧
      parseMoneyText (2401 / 2 : Rat) "CLP" = "$" ++ dotGrouped 1200 := by
  refine ⟨by norm_num, ?_⟩
  have h := (c7_money_formatting (2401 / 2 : Rat) (by norm_num)).1
  have ht : ratTrunc (2401 / 2 : Rat) = 1200 := by
    have h0 : (0 : Rat) ≤ 2401 / 2 := by norm_num
    simp only [ratTrunc, if_pos h0]
    norm_num
  rw [ht] at h
  simpa using h

/-- C8: the rate limiter check discards recorded timestamps outside the
300-second window, admits exactly when fewer than 30 remain — recording the
new timestamp exactly when admitted — and is a total boolean function (it
never raises).  Consequently, from a fresh limiter, each of 30 messages at
the same instant is admitted, the 31st is rejected, and a message arriving
once the window has elapsed is admitted again. -/
theorem c8_rate_limiter_boundary :
    (∀ (nowSec : Int) (uid : Nat) (st : RLState),
      (rateLimiterCheck nowSec uid st).1 =
        decide (((rlLookup st uid).filter
          (fun t => nowSec - t < rlWindowSeconds)).length < rlMsgLimit) ∧
      (rateLimiterCheck nowSec uid st).2 =
        rlSet st uid
          (if ((rlLookup st uid).filter
              (fun t => nowSec - t < rlWindowSeconds)).length < rlMsgLimit then
            ((rlLookup st uid).filter (fun t => nowSec - t < rlWindowSeconds)) ++ [nowSec]
          else (rlLookup st uid).filter (fun t => nowSec - t < rlWindowSeconds))) ∧
    (∀ k, k < 30 → (rateLimiterCheck 0 7 (rlBurst k)).1 = true) ∧
    (rateLimiterCheck 0 7 (rlBurst 30)).1 = false ∧
    (rateLimiterCheck 300 7 (rlBurst 30)).1 = true := by
  refine ⟨fun nowSec uid st => ?_, by decide, by decide, by decide⟩
  simp only [rateLimiterCheck]
  constructor
  · split
    · next hle => simp; omega
    · next hle => simp; omega
  · split
    · next hle => rw [if_neg (by omega)]
    · next hle => rw [if_pos (by omega)]

/-- C8 witness: the boundary theorem applied at the 10th message. -/
theorem c8_rate_limiter_boundary_witness :
    (9 : Nat) < 30 ∧ (rateLimiterCheck 0 7 (rlBurst 9)).1 = true :=
  ⟨by decide, c8_rate_limiter_boundary.2.1 9 (by decide)⟩

/-- C2: evaluation of the failing input.  The message `"abc @trabajo"`
reaches `TagManager.get_or_create_tags`, which creates tag `trabajo` and
commits; the amount token `"abc"` then raises `ValueError`, the handler
rolls back, marks the log `failed` with the captured error and sends the
generic failure notice — but the committed tag survives the rollback, so
the message's mutations are not all-or-nothing. -/
theorem c2_tag_commit_survives_rollback :
    (handle envFix ⟨"56911111111", "m1", "abc @trabajo", "text", none⟩ dbFix []).db.tags.map
        TagRow.name = ["trabajo"] ∧
    (handle envFix ⟨"56911111111", "m1", "abc @trabajo", "text", none⟩ dbFix []).db.expenses = [] ∧
    (handle envFix ⟨"56911111111", "m1", "abc @trabajo", "text", none⟩ dbFix []).db.logs.map
        (fun l => (l.providerMessageId, l.status, l.error)) =
      [("m1", "failed", some "invalid literal for int() with base 10: \x27abc\x27")] ∧
    (handle envFix ⟨"56911111111", "m1", "abc @trabajo", "text", none⟩ dbFix []).out =
      [OutMsg.text "56911111111" "Ocurrió un error procesando tu mensaje. Intenta nuevamente."] ∧
    (handle envFix ⟨"56911111111", "m1", "abc @trabajo", "text", none⟩ dbFix []).exc =
      some "invalid literal for int() with base 10: \x27abc\x27" := by
  refine ⟨?_, ?_, ?_, ?_, ?_⟩ <;> rfl

/-- `find?` commutes with a map that preserves the searched predicate. -/
theorem find?_map_pred {α : Type} (f : α → α) (p : α → Bool) (hp : ∀ a, p (f a) = p a)
    (l : List α) : (l.map f).find? p = (l.find? p).map f := by
  induction l with
  | nil => rfl
  | cons a l ih =>
    simp only [List.map_cons, List.find?]
    rw [hp a]
    cases h : p a
    · simpa using ih
    · rfl

/-- The status-update predicate invariance: looking an expense up by id and
user is unaffected by a status write. -/
theorem findExpense_setStatus (l : List ExpenseRow) (eid : Nat) (st : String)
    (n : Int) (uid : Nat) :
    ((l.map (fun x => if x.id == eid then { x with status := st } else x)).find?
        (fun x => ((x.id : Int) == n) && x.userId == uid)) =
      (l.find? (fun x => ((x.id : Int) == n) && x.userId == uid)).map
        (fun x => if x.id == eid then { x with status := st } else x) := by
  refine find?_map_pred _ _ (fun a => ?_) l
  by_cases h : a.id == eid <;> simp [h]

/-- Setting the same status twice is the same as setting it once. -/
theorem setExpenseStatus_idem (db : DB) (eid : Nat) (st : String) :
    setExpenseStatus (setExpenseStatus db eid st) eid st = setExpenseStatus db eid st := by
  simp only [setExpenseStatus, List.map_map]
  congr 1
  refine List.map_congr_left (fun x hx => ?_)
  by_cases h : x.id == eid <;> simp [Function.comp, h]

/-- Both resolution branches of `handle_interactive_response` in one
equation: a `confirm` sets `confirmed` and a `decline` sets `rejected`,
each committing the status mutation and replying with its notice. -/
theorem handleInteractive_sets (user : UserRow) (s : Sess) (e : ExpenseRow)
    (br : ButtonReply) (ids : String) (eid : Int) (inst st : String)
    (hinst : (inst = "confirm" ∧ st = "confirmed") ∨
      (inst = "decline" ∧ st = "rejected"))
    (hsplit : splitOnceUnderscore br.id = some (inst, ids))
    (hid : pyInt ids = Except.ok eid)
    (hfind : s.pending.expenses.find?
      (fun x => ((x.id : Int) == eid) && x.userId == user.id) = some e) :
    handleInteractiveResponse user ⟨"button_reply", some br⟩ s =
      (commitS ⟨s.committed, setExpenseStatus s.pending e.id st⟩,
       [OutMsg.text user.phone
         (if inst = "confirm" then
           "✅ *¡Gasto confirmado exitosamente!*\n" ++
             expenseStr { e with status := st }
               (commitS ⟨s.committed, setExpenseStatus s.pending e.id st⟩).pending ++
             "\n\n¡Tu gasto ha sido registrado correctamente! 💫"
         else
           "❌ *Gasto rechazado:*\n" ++
             expenseStr { e with status := st }
               (commitS ⟨s.committed, setExpenseStatus s.pending e.id st⟩).pending ++
             "\n\nEl gasto ha sido rechazado y no se guardará en tus registros.")],
       Except.ok ()) := by
  rcases hinst with ⟨rfl, rfl⟩ | ⟨rfl, rfl⟩
  · simp only [handleInteractiveResponse, hsplit, hid, hfind]
    rfl
  · simp only [handleInteractiveResponse, hsplit, hid, hfind]
    rfl

/-- C4: replaying the same `confirm_<id>` or `decline_<id>` button reply
is idempotent — the second application leaves the session exactly as the
first did, the expense carries the corresponding resolved status
(`confirmed` for a confirm, `rejected` for a decline), and no additional
expense row is created.  The lookup has no status filter, so the same
holds when the action is applied to an already-resolved expense: it is
accepted and the status re-applied. -/
theorem c4_confirm_replay_idempotent (user : UserRow) (s : Sess) (e : ExpenseRow)
    (br : ButtonReply) (ids : String) (eid : Int) (inst st : String)
    (hinst : (inst = "confirm" ∧ st = "confirmed") ∨
      (inst = "decline" ∧ st = "rejected"))
    (hsplit : splitOnceUnderscore br.id = some (inst, ids))
    (hid : pyInt ids = Except.ok eid)
    (hfind : s.pending.expenses.find?
      (fun x => ((x.id : Int) == eid) && x.userId == user.id) = some e) :
    let r1 := handleInteractiveResponse user ⟨"button_reply", some br⟩ s
    let r2 := handleInteractiveResponse user ⟨"button_reply", some br⟩ r1.1
    r2.1 = r1.1 ∧
    (∀ x ∈ r1.1.pending.expenses, x.id = e.id → x.status = st) ∧
    r1.1.pending.expenses.length = s.pending.expenses.length ∧
    r1.1.committed = r1.1.pending := by
  intro r1 r2
  have hr1 : r1.1 = commitS ⟨s.committed, setExpenseStatus s.pending e.id st⟩ := by
    show (handleInteractiveResponse user ⟨"button_reply", some br⟩ s).1 = _
    rw [handleInteractive_sets user s e br ids eid inst st hinst hsplit hid hfind]
  have hfind2 : (setExpenseStatus s.pending e.id st).expenses.find?
      (fun x => ((x.id : Int) == eid) && x.userId == user.id) =
      some { e with status := st } := by
    simp only [setExpenseStatus]
    rw [findExpense_setStatus, hfind]
    simp
  have hr2 : r2.1 = r1.1 := by
    show (handleInteractiveResponse user ⟨"button_reply", some br⟩ r1.1).1 = r1.1
    rw [hr1]
    rw [handleInteractive_sets user _ { e with status := st } br ids eid inst st
      hinst hsplit hid hfind2]
    show commitS ⟨setExpenseStatus s.pending e.id st,
      setExpenseStatus (setExpenseStatus s.pending e.id st)
        ({ e with status := st } : ExpenseRow).id st⟩ = _
    rw [show ({ e with status := st } : ExpenseRow).id = e.id from rfl]
    rw [setExpenseStatus_idem]
    rfl
  refine ⟨hr2, ?_, ?_, ?_⟩
  · intro x hx hxe
    rw [hr1] at hx
    simp only [commitS, setExpenseStatus] at hx
    obtain ⟨y, hy, rfl⟩ := List.mem_map.mp hx
    by_cases h : y.id == e.id
    · simp [h]
    · simp only [h, Bool.false_eq_true, if_false] at hxe ⊢
      exact absurd (by simpa using hxe) (by simpa using h)
  · rw [hr1]
    simp [commitS, setExpenseStatus]
  · rw [hr1]
    rfl

/-- C4 witness: the theorem applied to the fixture expense, once with the
confirm action and once with the decline action. -/
theorem c4_confirm_replay_idempotent_witness :
    (handleInteractiveResponse userFix ⟨"button_reply", some ⟨"confirm_5", "Confirmar"⟩⟩
        ⟨dbExpFix, dbExpFix⟩).1.pending.expenses.length =
      (⟨dbExpFix, dbExpFix⟩ : Sess).pending.expenses.length ∧
    (handleInteractiveResponse userFix ⟨"button_reply", some ⟨"decline_5", "Rechazar"⟩⟩
        ⟨dbExpFix, dbExpFix⟩).1.pending.expenses.length =
      (⟨dbExpFix, dbExpFix⟩ : Sess).pending.expenses.length :=
  ⟨(c4_confirm_replay_idempotent userFix ⟨dbExpFix, dbExpFix⟩ expenseRejFix
      ⟨"confirm_5", "Confirmar"⟩ "5" 5 "confirm" "confirmed"
      (Or.inl ⟨rfl, rfl⟩) rfl rfl rfl).2.2.1,
   (c4_confirm_replay_idempotent userFix ⟨dbExpFix, dbExpFix⟩ expenseRejFix
      ⟨"decline_5", "Rechazar"⟩ "5" 5 "decline" "rejected"
      (Or.inr ⟨rfl, rfl⟩) rfl rfl rfl).2.2.1⟩

/-- C9: the interactive lookup filters by id and owner only — no status
filter — so a `confirm` is accepted and sets `confirmed`, and a `decline`
is accepted and sets `rejected`, whatever the expense's current status is
(in particular a confirm flips an already-`rejected` expense to
`confirmed` instead of refusing), replying with the corresponding notice
and creating no second record. -/
theorem c9_confirm_ignores_status (user : UserRow) (s : Sess) (e : ExpenseRow)
    (br : ButtonReply) (ids : String) (eid : Int) (inst st : String)
    (hinst : (inst = "confirm" ∧ st = "confirmed") ∨
      (inst = "decline" ∧ st = "rejected"))
    (hsplit : splitOnceUnderscore br.id = some (inst, ids))
    (hid : pyInt ids = Except.ok eid)
    (hfind : s.pending.expenses.find?
      (fun x => ((x.id : Int) == eid) && x.userId == user.id) = some e) :
    let r := handleInteractiveResponse user ⟨"button_reply", some br⟩ s
    r.2.2 = Except.ok () ∧
    (∀ x ∈ r.1.pending.expenses, x.id = e.id → x.status = st) ∧
    r.1.pending.expenses.length = s.pending.expenses.length ∧
    r.2.1 = [OutMsg.text user.phone
      (if inst = "confirm" then
        "✅ *¡Gasto confirmado exitosamente!*\n" ++
          expenseStr { e with status := st } r.1.pending ++
          "\n\n¡Tu gasto ha sido registrado correctamente! 💫"
      else
        "❌ *Gasto rechazado:*\n" ++
          expenseStr { e with status := st } r.1.pending ++
          "\n\nEl gasto ha sido rechazado y no se guardará en tus registros.")] := by
  intro r
  have hr : r = (commitS ⟨s.committed, setExpenseStatus s.pending e.id st⟩,
      [OutMsg.text user.phone
        (if inst = "confirm" then
          "✅ *¡Gasto confirmado exitosamente!*\n" ++
            expenseStr { e with status := st }
              (commitS ⟨s.committed, setExpenseStatus s.pending e.id st⟩).pending ++
            "\n\n¡Tu gasto ha sido registrado correctamente! 💫"
        else
          "❌ *Gasto rechazado:*\n" ++
            expenseStr { e with status := st }
              (commitS ⟨s.committed, setExpenseStatus s.pending e.id st⟩).pending ++
            "\n\nEl gasto ha sido rechazado y no se guardará en tus registros.")],
      Except.ok ()) :=
    handleInteractive_sets user s e br ids eid inst st hinst hsplit hid hfind
  refine ⟨by rw [hr], ?_, by rw [hr]; simp [commitS, setExpenseStatus], by rw [hr]⟩
  intro x hx hxe
  rw [hr] at hx
  simp only [commitS, setExpenseStatus] at hx
  obtain ⟨y, hy, rfl⟩ := List.mem_map.mp hx
  by_cases h : y.id == e.id
  · simp [h]
  · simp only [h, Bool.false_eq_true, if_false] at hxe ⊢
    exact absurd (by simpa using hxe) (by simpa using h)

/-- C9 witness: the theorem applied to the fixture `rejected` expense —
the confirm action flips it to `confirmed`, and the decline action
re-applies `rejected`; both are accepted. -/
theorem c9_confirm_ignores_status_witness :
    (handleInteractiveResponse userFix ⟨"button_reply", some ⟨"confirm_5", "Confirmar"⟩⟩
        ⟨dbExpFix, dbExpFix⟩).2.2 = Except.ok () ∧
    (handleInteractiveResponse userFix ⟨"button_reply", some ⟨"decline_5", "Rechazar"⟩⟩
        ⟨dbExpFix, dbExpFix⟩).2.2 = Except.ok () :=
  ⟨(c9_confirm_ignores_status userFix ⟨dbExpFix, dbExpFix⟩ expenseRejFix
      ⟨"confirm_5", "Confirmar"⟩ "5" 5 "confirm" "confirmed"
      (Or.inl ⟨rfl, rfl⟩) rfl rfl rfl).1,
   (c9_confirm_ignores_status userFix ⟨dbExpFix, dbExpFix⟩ expenseRejFix
      ⟨"decline_5", "Rechazar"⟩ "5" 5 "decline" "rejected"
      (Or.inr ⟨rfl, rfl⟩) rfl rfl rfl).1⟩

/-- The expense pipeline as the composition of its stages. -/
theorem createExpenseFromText_unfolded (user : UserRow) (now : PyDateTime)
    (text : String) (s : Sess) :
    createExpenseFromText user now text s =
      createExpenseCore user
        ((extractDate ((splitTextAndTag (pyLower (stripPy text))).1) now)).2 text
        (tagResolve ((splitTextAndTag (pyLower (stripPy text))).2) s).1
        (tagResolve ((splitTextAndTag (pyLower (stripPy text))).2) s).2
        (splitWs ((extractDate ((splitTextAndTag (pyLower (stripPy text))).1) now)).1) := rfl

/-- C6 counterexample: for the spec\x27s own example
`"8500 comida cafe 15/03 @trabajo"` the stored description is `"cafe"`,
not `"comida cafe"`: the second whitespace token (`comida`) is consumed as
the category reference and only the remaining tokens form the description. -/
theorem c6_counterexample :
    (createExpenseFromText userFix envFix.nowLocal "8500 comida cafe 15/03 @trabajo"
        ⟨dbFix, dbFix⟩).1.pending.expenses.map ExpenseRow.description = ["cafe"] ∧
    ("cafe" : String) ≠ "comida cafe" :=
  ⟨rfl, by decide⟩

/-- C6 (amended): `_extract_date` scans for `D[sep]M[sep]YYYY|YY`
(separator `/` or `-`) first; a two-digit year is promoted by adding 2000;
a match that is an invalid numeric date falls through to the `D[sep]M`
pattern with the current year assumed, an invalid `D[sep]M` match (or no
match at all) leaves the text unchanged and defaults the expense date to
the processing timestamp; a parsed match is removed from the text with
`str.replace` and the remainder stripped.  The example
`"8500 comida cafe 15/03 @trabajo"` yields tag `["trabajo"]`, date
day 15 month 3 of the current year at 12:00, category `comida`,
amount 8500, currency CLP, and description `"cafe"` (token 1 `comida`
is the category reference; only tokens 2+ form the description). -/
theorem c6_date_extraction :
    (∀ (text : String) (now : PyDateTime) (mtxt : List Char) (d mo yr : Nat),
      searchP1 text = some (mtxt, d, mo, yr) →
      isValidDate (if yr < 100 then yr + 2000 else yr) mo d = true →
      extractDate text now =
        (stripPy (pyRemoveAll text (String.mk mtxt)),
         ⟨if yr < 100 then yr + 2000 else yr, mo, d, 12, 0, 0⟩)) ∧
    (∀ (text : String) (now : PyDateTime) (mtxt : List Char) (d mo yr : Nat),
      searchP1 text = some (mtxt, d, mo, yr) →
      isValidDate (if yr < 100 then yr + 2000 else yr) mo d = false →
      extractDate text now = extractDateP2 text now) ∧
    (∀ (text : String) (now : PyDateTime),
      searchP1 text = none → extractDate text now = extractDateP2 text now) ∧
    (∀ (text : String) (now : PyDateTime) (mtxt : List Char) (d mo : Nat),
      searchP2 text = some (mtxt, d, mo) →
      isValidDate now.year mo d = true →
      extractDateP2 text now =
        (stripPy (pyRemoveAll text (String.mk mtxt)), ⟨now.year, mo, d, 12, 0, 0⟩)) ∧
    (∀ (text : String) (now : PyDateTime) (mtxt : List Char) (d mo : Nat),
      searchP2 text = some (mtxt, d, mo) →
      isValidDate now.year mo d = false →
      extractDateP2 text now = (text, now)) ∧
    (∀ (text : String) (now : PyDateTime),
      searchP2 text = none → extractDateP2 text now = (text, now)) ∧
    splitTextAndTag (pyLower (stripPy "8500 comida cafe 15/03 @trabajo")) =
      ("8500 comida cafe 15/03", some ["trabajo"]) ∧
    extractDate "8500 comida cafe 15/03" envFix.nowLocal =
      ("8500 comida cafe", ⟨2026, 3, 15, 12, 0, 0⟩) ∧
    (createExpenseFromText userFix envFix.nowLocal "8500 comida cafe 15/03 @trabajo"
        ⟨dbFix, dbFix⟩).1.pending.expenses.map
        (fun e => (e.currency, e.categoryId, e.description, e.expenseDate, e.tagIds)) =
      [("CLP", some comidaFix.id, "cafe", ⟨2026, 3, 15, 12, 0, 0⟩, [1])] ∧
    (createExpenseFromText userFix envFix.nowLocal "8500 comida cafe 15/03 @trabajo"
        ⟨dbFix, dbFix⟩).1.pending.tags.map TagRow.name = ["trabajo"] ∧
    (createExpenseFromText userFix envFix.nowLocal "8500 comida cafe 15/03 @trabajo"
        ⟨dbFix, dbFix⟩).1.pending.expenses.map ExpenseRow.amount = [(8500 : Rat)] := by
  refine ⟨?_, ?_, ?_, ?_, ?_, ?_, rfl, rfl, rfl, rfl, ?_⟩
  · intro text now mtxt d mo yr h1 hval
    show extractDateGo1 text now (searchP1 text) = _
    rw [h1]
    simp only [extractDateGo1, hval, if_true]
  · intro text now mtxt d mo yr h1 hval
    show extractDateGo1 text now (searchP1 text) = _
    rw [h1]
    simp only [extractDateGo1, hval, Bool.false_eq_true, if_false]
  · intro text now h1
    show extractDateGo1 text now (searchP1 text) = _
    rw [h1]
    rfl
  · intro text now mtxt d mo h1 hval
    show extractDateGo2 text now (searchP2 text) = _
    rw [h1]
    simp only [extractDateGo2, hval, if_true]
  · intro text now mtxt d mo h1 hval
    show extractDateGo2 text now (searchP2 text) = _
    rw [h1]
    simp only [extractDateGo2, hval, Bool.false_eq_true, if_false]
  · intro text now h1
    show extractDateGo2 text now (searchP2 text) = _
    rw [h1]
    rfl
  · have h : (createExpenseFromText userFix envFix.nowLocal
        "8500 comida cafe 15/03 @trabajo"
        ⟨dbFix, dbFix⟩).1.pending.expenses.map ExpenseRow.amount =
        [((8500 : Int) : Rat)] := rfl
    rw [h]
    norm_num

/-- C6 witness: the `D[sep]M` clause applied to the concrete body
`"8500 comida cafe 15/03"` at the fixture clock. -/
theorem c6_date_extraction_witness :
    extractDateP2 "8500 comida cafe 15/03" envFix.nowLocal =
      (stripPy (pyRemoveAll "8500 comida cafe 15/03"
        (String.mk ['1', '5', '/', '0', '3'])),
       ⟨envFix.nowLocal.year, 3, 15, 12, 0, 0⟩) :=
  c6_date_extraction.2.2.2.1 "8500 comida cafe 15/03" envFix.nowLocal
    ['1', '5', '/', '0', '3'] 15 3 rfl rfl

theorem logKeyCount_congr (db1 db2 : DB) (mid : String) (h : db1.logs = db2.logs) :
    logKeyCount db1 mid = logKeyCount db2 mid := by
  unfold logKeyCount
  rw [h]

theorem logKeyCount_setLogStatus (db : DB) (mid st : String) (err : Option String)
    (mid2 : String) :
    logKeyCount (setLogStatus db mid st err) mid2 = logKeyCount db mid2 := by
  unfold logKeyCount setLogStatus
  rw [← List.countP_eq_length_filter, ← List.countP_eq_length_filter, List.countP_map]
  apply List.countP_congr
  intro x _
  simp only [Function.comp_apply]
  by_cases hx : (x.provider == "meta" && x.providerMessageId == mid) = true
  · rw [if_pos hx]
  · rw [if_neg hx]

theorem findLogRow_none_count (db : DB) (mid : String)
    (h : findLogRow db "meta" mid = none) : logKeyCount db mid = 0 := by
  unfold findLogRow at h
  unfold logKeyCount
  rw [List.length_eq_zero]
  rw [List.find?_eq_none] at h
  rw [List.filter_eq_nil_iff]
  intro l hl
  exact fun hp => h l hl hp

theorem logKeyCount_append (db : DB) (L : List LogRow) (row : LogRow) (mid : String)
    (hrow : row.provider = "meta" ∧ row.providerMessageId = mid)
    (h : db.logs = L ++ [row]) :
    logKeyCount db mid = (L.filter
      (fun l => l.provider == "meta" && l.providerMessageId == mid)).length + 1 := by
  unfold logKeyCount
  rw [h, List.filter_append]
  have hone : (List.filter (fun l => l.provider == "meta" && l.providerMessageId == mid)
      [row]) = [row] := by
    simp [List.filter, hrow.1, hrow.2]
  rw [hone, List.length_append]
  rfl

theorem findLogRow_of_count_pos (db : DB) (mid : String)
    (h : 0 < logKeyCount db mid) : ∃ l, findLogRow db "meta" mid = some l := by
  unfold logKeyCount at h
  unfold findLogRow
  rw [List.length_pos] at h
  rcases List.exists_mem_of_ne_nil _ h with ⟨l, hl⟩
  have hmem := List.mem_filter.mp hl
  have h2 : (db.logs.find?
      (fun l => l.provider == "meta" && l.providerMessageId == mid)).isSome :=
    List.find?_isSome.mpr ⟨l, hmem.1, hmem.2⟩
  cases hfind : db.logs.find?
      (fun l => l.provider == "meta" && l.providerMessageId == mid) with
  | none => rw [hfind] at h2; simp at h2
  | some x => exact ⟨x, rfl⟩

theorem logsEq_getOrCreateUser (L : List LogRow) (phone : String) (s : Sess)
    (h : LogsEq L s) : LogsEq L (getOrCreateUser phone s).2 := by
  unfold getOrCreateUser
  split
  · exact h
  · exact ⟨h.2, h.2⟩

theorem tagsFold_logs (names : List String) :
    ∀ acc : List Nat × DB, ((names.foldl tagStep acc).2).logs = acc.2.logs := by
  induction names with
  | nil => intro acc; rfl
  | cons n ns ih =>
    intro acc
    simp only [List.foldl_cons]
    rw [ih]
    simp only [tagStep]
    split <;> rfl

theorem logsEq_tagResolve (L : List LogRow) (t : Option (List String)) (s : Sess)
    (h : LogsEq L s) : LogsEq L (tagResolve t s).2 := by
  cases t with
  | none => exact h
  | some tags =>
    simp only [tagResolve, getOrCreateTags, commitS]
    constructor <;> exact (tagsFold_logs tags ([], s.pending)).trans h.2

theorem logsEq_createExpenseCore (L : List LogRow) (user : UserRow)
    (dateVal : PyDateTime) (rawText : String) (tagIds : List Nat) (s1 : Sess)
    (items : List String) (h : LogsEq L s1) :
    LogsEq L (createExpenseCore user dateVal rawText tagIds s1 items).1 := by
  simp only [createExpenseCore]
  repeat' split
  all_goals first
    | exact h
    | exact ⟨h.2, h.2⟩

theorem logsEq_createExpenseFromText (L : List LogRow) (user : UserRow)
    (now : PyDateTime) (text : String) (s : Sess) (h : LogsEq L s) :
    LogsEq L (createExpenseFromText user now text s).1 := by
  rw [createExpenseFromText_unfolded]
  exact logsEq_createExpenseCore L user _ _ _ _ _
    (logsEq_tagResolve L _ s h)

theorem logsEq_handleInteractiveResponse (L : List LogRow) (user : UserRow)
    (inter : Interactive) (s : Sess) (h : LogsEq L s) :
    LogsEq L (handleInteractiveResponse user inter s).1 := by
  simp only [handleInteractiveResponse]
  repeat' split
  all_goals first
    | exact h
    | exact ⟨h.2, h.2⟩

set_option maxHeartbeats 2000000 in
theorem logsEq_categoryManagerHandle (L : List LogRow) (t : String) (s : Sess)
    (h : LogsEq L s) : LogsEq L (categoryManagerHandle t s).1 := by
  simp only [categoryManagerHandle]
  repeat' split
  · exact h
  · exact h
  · exact h
  · exact ⟨h.2, h.2⟩
  · exact ⟨h.1, h.2⟩
  · exact ⟨h.2, h.2⟩
  · exact ⟨h.1, h.2⟩
  · exact ⟨h.2, h.2⟩
  · exact ⟨h.1, h.2⟩
  · exact ⟨h.2, h.2⟩
  · exact ⟨h.1, h.2⟩
  · exact ⟨h.2, h.2⟩
  · exact ⟨h.1, h.2⟩
  · exact ⟨h.2, h.2⟩
  · exact ⟨h.1, h.2⟩
  · exact h
  · exact h
  · exact h
  · exact h

theorem logsEq_deleteLastExpense (L : List LogRow) (user : UserRow) (s : Sess)
    (h : LogsEq L s) : LogsEq L (deleteLastExpense user s).1 := by
  simp only [deleteLastExpense]
  repeat' split
  all_goals first
    | exact h
    | exact ⟨h.2, h.2⟩

set_option maxHeartbeats 2000000 in
theorem logsEq_handleTextMessage (L : List LogRow) (user : UserRow)
    (now : PyDateTime) (text : String) (s : Sess) (h : LogsEq L s) :
    LogsEq L (handleTextMessage user now text s).1 := by
  simp only [handleTextMessage]
  repeat' split
  · exact h
  · exact h
  · exact logsEq_categoryManagerHandle L _ s h
  · exact h
  · exact h
  · exact h
  · exact h
  · exact h
  · exact h
  · exact h
  · exact logsEq_deleteLastExpense L user s h
  · exact h
  · exact h
  · dsimp only
    exact logsEq_createExpenseFromText L user now _ s h

theorem logKeyCount_of_logs (db : DB) (L : List LogRow) (mid : String)
    (h : db.logs = L)
    (hc : (L.filter
      (fun l => l.provider == "meta" && l.providerMessageId == mid)).length = 1) :
    logKeyCount db mid = 1 := by
  unfold logKeyCount
  rw [h]
  exact hc

theorem logsEq_dispatchStep (L : List LogRow) (user : UserRow) (env : Env)
    (ev : MessageEvent) (s3 : Sess) (h : LogsEq L s3) :
    LogsEq L (dispatchStep user env ev s3).1 := by
  unfold dispatchStep
  split
  · dsimp only
    exact logsEq_handleInteractiveResponse L user _ s3 h
  · exact logsEq_handleTextMessage L user env.nowLocal ev.text s3 h

theorem finishStep_count (L : List LogRow) (ev : MessageEvent) (rl2 : RLState)
    (disp : Sess × List OutMsg × Except String (Option String))
    (hd : LogsEq L disp.1)
    (hc : (L.filter
      (fun l => l.provider == "meta" && l.providerMessageId == ev.messageId)).length = 1) :
    logKeyCount (finishStep ev rl2 disp).db ev.messageId = 1 := by
  unfold finishStep
  split
  · dsimp only [commitS]
    rw [logKeyCount_setLogStatus]
    exact logKeyCount_of_logs _ L _ hd.2 hc
  · dsimp only [commitS, rollbackS]
    rw [logKeyCount_setLogStatus]
    exact logKeyCount_of_logs _ L _ hd.1 hc

theorem handle_dup_noop (env : Env) (ev : MessageEvent) (db : DB) (rl : RLState)
    (l : LogRow) (h : findLogRow db "meta" ev.messageId = some l) :
    handle env ev db rl = ⟨db, rl, [], none⟩ := by
  unfold handle
  rw [h]

theorem handle_fresh_count (env : Env) (ev : MessageEvent) (db : DB) (rl : RLState)
    (h : findLogRow db "meta" ev.messageId = none) :
    logKeyCount (handle env ev db rl).db ev.messageId = 1 := by
  have h0 : logKeyCount db ev.messageId = 0 := findLogRow_none_count db ev.messageId h
  have hcount : ((db.logs ++
      [(⟨"meta", ev.messageId, ev.from_, "in", ev.text, "received", none⟩ : LogRow)]).filter
      (fun l => l.provider == "meta" && l.providerMessageId == ev.messageId)).length = 1 := by
    rw [List.filter_append]
    have h1 : (List.filter
        (fun l => l.provider == "meta" && l.providerMessageId == ev.messageId)
        [(⟨"meta", ev.messageId, ev.from_, "in", ev.text, "received", none⟩ : LogRow)]) =
        [⟨"meta", ev.messageId, ev.from_, "in", ev.text, "received", none⟩] := by
      simp [List.filter]
    rw [h1, List.length_append]
    have h2 := h0
    unfold logKeyCount at h2
    rw [h2]
    rfl
  unfold handle
  rw [h]
  dsimp only
  split
  · dsimp only [commitS]
    rw [logKeyCount_setLogStatus]
    exact logKeyCount_of_logs _ _ _
      ((logsEq_getOrCreateUser _ ev.from_ _ ⟨rfl, rfl⟩).2) hcount
  · split
    · dsimp only [commitS]
      rw [logKeyCount_setLogStatus]
      exact logKeyCount_of_logs _ _ _
        ((logsEq_getOrCreateUser _ ev.from_ _ ⟨rfl, rfl⟩).2) hcount
    · exact finishStep_count _ ev _ _
        (logsEq_dispatchStep _ _ env ev _
          ⟨(logsEq_getOrCreateUser _ ev.from_ _ ⟨rfl, rfl⟩).1,
           (logsEq_getOrCreateUser _ ev.from_ _ ⟨rfl, rfl⟩).2⟩) hcount

/-- C1: delivering the same `("meta", provider_message_id)` key twice is
idempotent: a duplicate delivery is detected by the dedup lookup and
returns immediately with the database, the limiter state and no outbound
messages untouched; a first (fresh) delivery leaves exactly one
`message_log` row under the key, so the second delivery of the same event
is a complete no-op with no user-visible reply and no further side
effects. -/
theorem c1_idempotent_intake :
    (∀ (env : Env) (ev : MessageEvent) (db : DB) (rl : RLState) (l : LogRow),
      findLogRow db "meta" ev.messageId = some l →
      handle env ev db rl = ⟨db, rl, [], none⟩) ∧
    (∀ (env env2 : Env) (ev : MessageEvent) (db : DB) (rl rl2 : RLState),
      findLogRow db "meta" ev.messageId = none →
      logKeyCount (handle env ev db rl).db ev.messageId = 1 ∧
      handle env2 ev (handle env ev db rl).db rl2 =
        ⟨(handle env ev db rl).db, rl2, [], none⟩) := by
  constructor
  · intro env ev db rl l h
    exact handle_dup_noop env ev db rl l h
  · intro env env2 ev db rl rl2 h
    have hc := handle_fresh_count env ev db rl h
    refine ⟨hc, ?_⟩
    obtain ⟨l2, hl2⟩ := findLogRow_of_count_pos _ _ (by rw [hc]; norm_num)
    exact handle_dup_noop env2 ev _ rl2 l2 hl2

/-- C1 witness: the fresh-then-duplicate clause at the concrete fixture
event `m9`. -/
theorem c1_idempotent_intake_witness :
    logKeyCount (handle envFix evFix dbFix []).db evFix.messageId = 1 ∧
    handle envFix evFix (handle envFix evFix dbFix []).db [] =
      ⟨(handle envFix evFix dbFix []).db, [], [], none⟩ :=
  c1_idempotent_intake.2 envFix envFix evFix dbFix [] [] rfl

theorem isDescAux_succ (cats : List Cat) (tid fuel cur : Nat) :
    isDescAux cats tid (fuel + 1) cur =
      (cur == tid ||
        match (catById cats cur).bind (fun c => c.parentId) with
        | some p => isDescAux cats tid fuel p
        | none => false) := rfl

theorem pathP_split (cats : List Cat) (x : Nat) (s : List Nat) :
    ∀ (a b : Nat) (t : List Nat), PathP cats a (s ++ x :: t) b →
      PathP cats a s x ∧ PathP cats x t b := by
  induction s with
  | nil =>
    intro a b t h
    obtain ⟨h1, h2⟩ := h
    exact ⟨h1, h2⟩
  | cons y s ih =>
    intro a b t h
    obtain ⟨h1, h2⟩ := h
    rcases ih y b t h2 with ⟨h3, h4⟩
    exact ⟨⟨h1, h3⟩, h4⟩

theorem pathP_append (cats : List Cat) (y z : Nat) (s : List Nat) :
    ∀ (x : Nat) (u : List Nat), PathP cats x u y → PathP cats y s z →
      PathP cats x (u ++ y :: s) z := by
  intro x u
  induction u generalizing x with
  | nil => intro h1 h2; exact ⟨h1, h2⟩
  | cons w u ih =>
    intro h1 h2
    obtain ⟨hs, hr⟩ := h1
    exact ⟨hs, ih w hr h2⟩

theorem cycle_rotate (cats : List Cat) (a t : Nat) (l : List Nat)
    (hp : PathP cats a l a) (ht : t = a ∨ t ∈ l) : ReachesP cats t t := by
  rcases ht with rfl | hmem
  · exact ⟨l, hp⟩
  · rcases List.append_of_mem hmem with ⟨s, u, rfl⟩
    rcases pathP_split cats t s a a u hp with ⟨h1, h2⟩
    exact ⟨u ++ a :: s, pathP_append cats a t s t u h2 h1⟩

theorem stepRel_congr (cats1 cats2 : List Cat)
    (h : ∀ x, parentOf cats1 x = parentOf cats2 x) (a b : Nat)
    (hs : StepRel cats1 a b) : StepRel cats2 a b := by
  unfold StepRel at hs ⊢
  rw [← h a]
  exact hs

theorem pathP_congr (cats1 cats2 : List Cat)
    (h : ∀ x, parentOf cats1 x = parentOf cats2 x) :
    ∀ (l : List Nat) (a b : Nat), PathP cats1 a l b → PathP cats2 a l b := by
  intro l
  induction l with
  | nil => intro a b hp; exact stepRel_congr cats1 cats2 h a b hp
  | cons x l ih =>
    intro a b hp
    obtain ⟨hs, hr⟩ := hp
    exact ⟨stepRel_congr cats1 cats2 h a x hs, ih x b hr⟩

theorem acyclic_congr (cats1 cats2 : List Cat)
    (h : ∀ x, parentOf cats1 x = parentOf cats2 x) (hacy : AcyclicP cats1) :
    AcyclicP cats2 := by
  intro i hri
  obtain ⟨l, hp⟩ := hri
  exact hacy i ⟨l, pathP_congr cats2 cats1 (fun x => (h x).symm) l i i hp⟩

theorem catById_setCat (cats : List Cat) (tid : Nat) (f : Cat → Cat)
    (hid : ∀ c, (f c).id = c.id) (x : Nat) :
    catById (setCat cats tid f) x =
      (catById cats x).map (fun c => if c.id == tid then f c else c) := by
  unfold catById setCat
  induction cats with
  | nil => rfl
  | cons c cs ih =>
    simp only [List.map_cons, List.find?_cons]
    have hpred : (((if c.id == tid then f c else c).id) == x) = (c.id == x) := by
      split
      · rw [hid]
      · rfl
    rw [hpred]
    cases hcx : (c.id == x) with
    | true => rfl
    | false => exact ih

theorem parentOf_setCat_fields (cats : List Cat) (tid : Nat) (f : Cat → Cat)
    (hid : ∀ c, (f c).id = c.id) (hpar : ∀ c, (f c).parentId = c.parentId)
    (x : Nat) : parentOf (setCat cats tid f) x = parentOf cats x := by
  unfold parentOf
  rw [catById_setCat cats tid f hid x]
  cases catById cats x with
  | none => rfl
  | some c =>
    show (if c.id == tid then f c else c).parentId = c.parentId
    split
    · rw [hpar]
    · rfl

theorem parentOf_setCat_ne (cats : List Cat) (tid : Nat) (f : Cat → Cat)
    (hid : ∀ c, (f c).id = c.id) (x : Nat) (hx : x ≠ tid) :
    parentOf (setCat cats tid f) x = parentOf cats x := by
  unfold parentOf
  rw [catById_setCat cats tid f hid x]
  cases hfind : catById cats x with
  | none => rfl
  | some c =>
    have hcid : c.id = x := by
      have hp := List.find?_some hfind
      exact eq_of_beq hp
    show (if c.id == tid then f c else c).parentId = c.parentId
    rw [if_neg]
    rw [hcid]
    simp [hx]

theorem parentOf_setParent_self (cats : List Cat) (tid : Nat) (p : Option Nat) :
    parentOf (setCat cats tid (fun c => { c with parentId := p })) tid =
      (catById cats tid).bind (fun _ => p) := by
  unfold parentOf
  rw [catById_setCat cats tid (fun c => { c with parentId := p }) (fun c => rfl) tid]
  cases hfind : catById cats tid with
  | none => rfl
  | some c =>
    have hcid : c.id = tid := by
      have hp := List.find?_some hfind
      exact eq_of_beq hp
    show (if c.id == tid then { c with parentId := p } else c).parentId = p
    rw [if_pos]
    rw [hcid]
    simp

theorem pathP_avoid (cats : List Cat) (tid : Nat) (f : Cat → Cat)
    (hid : ∀ c, (f c).id = c.id) :
    ∀ (l : List Nat) (a b : Nat), (∀ y ∈ a :: l, y ≠ tid) →
      PathP (setCat cats tid f) a l b → PathP cats a l b := by
  intro l
  induction l with
  | nil =>
    intro a b havoid hp
    have ha : a ≠ tid := havoid a (List.mem_cons_self a [])
    have hp2 : parentOf (setCat cats tid f) a = some b := hp
    show parentOf cats a = some b
    rw [← parentOf_setCat_ne cats tid f hid a ha]
    exact hp2
  | cons x l ih =>
    intro a b havoid hp
    obtain ⟨hs, hr⟩ := hp
    have ha : a ≠ tid := havoid a (List.mem_cons_self a (x :: l))
    refine ⟨?_, ih x b (fun y hy => havoid y (List.mem_cons_of_mem a hy)) hr⟩
    have hs2 : parentOf (setCat cats tid f) a = some x := hs
    show parentOf cats a = some x
    rw [← parentOf_setCat_ne cats tid f hid a ha]
    exact hs2

theorem pathP_nodup_or_cycle (cats : List Cat) :
    ∀ (l : List Nat) (a b : Nat), PathP cats a l b →
      (a :: l).Nodup ∨ ∃ x, ReachesP cats x x := by
  intro l
  induction l with
  | nil =>
    intro a b _
    left
    exact List.nodup_singleton a
  | cons x l ih =>
    intro a b hp
    obtain ⟨hs, hr⟩ := hp
    rcases ih x b hr with hnd | hcyc
    · by_cases hmem : a ∈ x :: l
      · right
        rcases List.append_of_mem hmem with ⟨s, t, heq⟩
        have hfull : PathP cats a (s ++ a :: t) b := by
          rw [← heq]
          exact ⟨hs, hr⟩
        exact ⟨a, ⟨s, (pathP_split cats a s a b t hfull).1⟩⟩
      · left
        exact List.nodup_cons.mpr ⟨hmem, hnd⟩
    · right
      exact hcyc

theorem stepRel_src_mem (cats : List Cat) (a b : Nat) (h : StepRel cats a b) :
    a ∈ cats.map (fun c => c.id) := by
  unfold StepRel parentOf at h
  cases hfind : catById cats a with
  | none => rw [hfind] at h; simp at h
  | some c =>
    have hmem := List.mem_of_find?_eq_some hfind
    have hpred := List.find?_some hfind
    have hcid : c.id = a := eq_of_beq hpred
    exact hcid ▸ List.mem_map_of_mem _ hmem

theorem pathP_sources_subset (cats : List Cat) :
    ∀ (l : List Nat) (a b : Nat), PathP cats a l b →
      ∀ x, x ∈ a :: l → x ∈ cats.map (fun c => c.id) := by
  intro l
  induction l with
  | nil =>
    intro a b hp x hx
    have : x = a := by
      rcases List.mem_cons.mp hx with h1 | h2
      · exact h1
      · exact absurd h2 (List.not_mem_nil x)
    exact this ▸ stepRel_src_mem cats a b hp
  | cons y l ih =>
    intro a b hp x hx
    obtain ⟨hs, hr⟩ := hp
    rcases List.mem_cons.mp hx with rfl | hx2
    · exact stepRel_src_mem cats x y hs
    · exact ih y b hr x hx2

theorem isDescAux_mono (cats : List Cat) (tid : Nat) :
    ∀ (f1 f2 cur : Nat), f1 ≤ f2 → isDescAux cats tid f1 cur = true →
      isDescAux cats tid f2 cur = true := by
  intro f1
  induction f1 with
  | zero =>
    intro f2 cur _ h
    simp [isDescAux] at h
  | succ f ih =>
    intro f2 cur hle h
    cases f2 with
    | zero => omega
    | succ f2 =>
      rw [isDescAux_succ] at h ⊢
      cases hct : (cur == tid) with
      | true => rfl
      | false =>
        rw [hct] at h
        simp only [Bool.false_or] at h ⊢
        cases hpar : (catById cats cur).bind (fun c => c.parentId) with
        | none => rw [hpar] at h; simp at h
        | some p =>
          rw [hpar] at h
          exact ih f2 p (by omega) h

theorem isDescAux_of_pathP (cats : List Cat) (tid : Nat) :
    ∀ (l : List Nat) (a : Nat), PathP cats a l tid →
      isDescAux cats tid (l.length + 2) a = true := by
  intro l
  induction l with
  | nil =>
    intro a hp
    have hp2 : (catById cats a).bind (fun c => c.parentId) = some tid := hp
    show isDescAux cats tid (1 + 1) a = true
    rw [isDescAux_succ, hp2]
    show (a == tid || isDescAux cats tid (0 + 1) tid) = true
    rw [isDescAux_succ]
    simp
  | cons x l ih =>
    intro a hp
    obtain ⟨hs, hr⟩ := hp
    have hs2 : (catById cats a).bind (fun c => c.parentId) = some x := hs
    show isDescAux cats tid ((l.length + 2) + 1) a = true
    rw [isDescAux_succ, hs2]
    show (a == tid || isDescAux cats tid (l.length + 2) x) = true
    rw [ih x hr]
    simp

theorem isDescendant_complete (cats : List Cat) (tid : Nat) (hacy : AcyclicP cats)
    (a : Nat) (hreach : ReachesP cats a tid) : isDescendant cats a tid = true := by
  obtain ⟨l, hp⟩ := hreach
  rcases pathP_nodup_or_cycle cats l a tid hp with hnd | ⟨x, hx⟩
  · have hsub : ∀ y, y ∈ a :: l → y ∈ cats.map (fun c => c.id) :=
      pathP_sources_subset cats l a tid hp
    have hsp := List.subperm_of_subset hnd hsub
    have hlen := hsp.length_le
    rw [List.length_map, List.length_cons] at hlen
    unfold isDescendant
    exact isDescAux_mono cats tid (l.length + 2) (cats.length + 1) a (by omega)
      (isDescAux_of_pathP cats tid l a hp)
  · exact absurd hx (hacy x)

theorem acyclic_setParent (cats : List Cat) (tid pid : Nat)
    (hacy : AcyclicP cats) (hdesc : isDescendant cats pid tid = false)
    (hne : pid ≠ tid) :
    AcyclicP (setCat cats tid (fun c => { c with parentId := some pid })) := by
  have hid : ∀ c : Cat,
      ((fun (c : Cat) => { c with parentId := some pid }) c).id = c.id := fun c => rfl
  have hnot : ∀ (n : Nat) (l : List Nat), l.length ≤ n →
      ¬ PathP (setCat cats tid (fun c => { c with parentId := some pid })) tid l tid := by
    intro n
    induction n with
    | zero =>
      intro l hl hp
      have hl0 : l = [] := List.length_eq_zero.mp (Nat.le_zero.mp hl)
      subst hl0
      have hstep : parentOf (setCat cats tid (fun c => { c with parentId := some pid }))
          tid = some tid := hp
      rw [parentOf_setParent_self] at hstep
      cases hcb : catById cats tid with
      | none => rw [hcb] at hstep; simp at hstep
      | some c =>
        rw [hcb] at hstep
        simp at hstep
        exact hne hstep
    | succ n ih =>
      intro l hl hp
      cases l with
      | nil =>
        have hstep : parentOf (setCat cats tid (fun c => { c with parentId := some pid }))
            tid = some tid := hp
        rw [parentOf_setParent_self] at hstep
        cases hcb : catById cats tid with
        | none => rw [hcb] at hstep; simp at hstep
        | some c =>
          rw [hcb] at hstep
          simp at hstep
          exact hne hstep
      | cons h0 l2 =>
        obtain ⟨hs, hr⟩ := hp
        have hstep : parentOf (setCat cats tid (fun c => { c with parentId := some pid }))
            tid = some h0 := hs
        rw [parentOf_setParent_self] at hstep
        have hh0 : h0 = pid := by
          cases hcb : catById cats tid with
          | none => rw [hcb] at hstep; simp at hstep
          | some c =>
            rw [hcb] at hstep
            simp at hstep
            exact hstep.symm
        rw [hh0] at hr
        by_cases hmem : tid ∈ l2
        · rcases List.append_of_mem hmem with ⟨s, u, rfl⟩
          have hsplit := pathP_split _ tid s pid tid u hr
          refine ih u ?_ hsplit.2
          simp only [List.length_cons, List.length_append, List.length_cons] at hl
          omega
        · have havoid : ∀ y ∈ pid :: l2, y ≠ tid := by
            intro y hy
            rcases List.mem_cons.mp hy with rfl | hy2
            · exact hne
            · intro hcontra
              exact hmem (hcontra ▸ hy2)
          have hcats : PathP cats pid l2 tid :=
            pathP_avoid cats tid _ hid l2 pid tid havoid hr
          have htrue : isDescendant cats pid tid = true :=
            isDescendant_complete cats tid hacy pid ⟨l2, hcats⟩
          rw [hdesc] at htrue
          exact Bool.false_ne_true htrue
  intro i hri
  obtain ⟨l, hp⟩ := hri
  by_cases hmem : tid = i ∨ tid ∈ l
  · obtain ⟨l2, hp2⟩ := cycle_rotate _ i tid l hp hmem
    exact hnot l2.length l2 le_rfl hp2
  · push_neg at hmem
    have havoid : ∀ y ∈ i :: l, y ≠ tid := by
      intro y hy hcontra
      rcases List.mem_cons.mp hy with h1 | h2
      · exact hmem.1 (hcontra.symm.trans h1)
      · refine hmem.2 ?_
        rw [← hcontra]
        exact h2
    exact hacy i ⟨l, pathP_avoid cats tid _ hid l i i havoid hp⟩

theorem acyclic_clearParent (cats : List Cat) (tid : Nat) (hacy : AcyclicP cats) :
    AcyclicP (setCat cats tid (fun c => { c with parentId := none })) := by
  have hid : ∀ c : Cat,
      ((fun (c : Cat) => { c with parentId := none }) c).id = c.id := fun c => rfl
  intro i hri
  obtain ⟨l, hp⟩ := hri
  by_cases hmem : tid = i ∨ tid ∈ l
  · obtain ⟨l2, hp2⟩ := cycle_rotate _ i tid l hp hmem
    have hstep : parentOf (setCat cats tid (fun c => { c with parentId := none }))
        tid = some (l2.headD tid) := by
      cases l2 with
      | nil => exact hp2
      | cons h0 l3 =>
        obtain ⟨h1, _⟩ := hp2
        exact h1
    rw [parentOf_setParent_self] at hstep
    cases hcb : catById cats tid with
    | none => rw [hcb] at hstep; simp at hstep
    | some c => rw [hcb] at hstep; simp at hstep
  · push_neg at hmem
    have havoid : ∀ y ∈ i :: l, y ≠ tid := by
      intro y hy hcontra
      rcases List.mem_cons.mp hy with h1 | h2
      · exact hmem.1 (hcontra.symm.trans h1)
      · refine hmem.2 ?_
        rw [← hcontra]
        exact h2
    exact hacy i ⟨l, pathP_avoid cats tid _ hid l i i havoid hp⟩

theorem acyclic_setCat_fields (cats : List Cat) (tid : Nat) (f : Cat → Cat)
    (hid : ∀ c, (f c).id = c.id) (hpar : ∀ c, (f c).parentId = c.parentId)
    (hacy : AcyclicP cats) : AcyclicP (setCat cats tid f) :=
  acyclic_congr cats (setCat cats tid f)
    (fun x => (parentOf_setCat_fields cats tid f hid hpar x).symm) hacy

theorem parentMap_setCat_fields (cats : List Cat) (tid : Nat) (f : Cat → Cat)
    (hid : ∀ c, (f c).id = c.id) (hpar : ∀ c, (f c).parentId = c.parentId) :
    parentMap (setCat cats tid f) = parentMap cats := by
  unfold parentMap setCat
  rw [List.map_map]
  apply List.map_congr_left
  intro c _
  simp only [Function.comp_apply]
  split
  · rw [hid, hpar]
  · rfl

theorem updateNameStep_parentOf (cats : List Cat) (target : Cat)
    (so : List String × List (String × String)) (x : Nat) :
    parentOf (updateNameStep cats target so).1 x = parentOf cats x := by
  unfold updateNameStep
  repeat' split
  all_goals try dsimp only
  repeat' split
  all_goals try dsimp only
  all_goals first
    | rfl
    | (refine parentOf_setCat_fields cats target.id _ ?_ ?_ x <;> intro c <;> rfl)

theorem updateNameStep_parentMap (cats : List Cat) (target : Cat)
    (so : List String × List (String × String)) :
    parentMap (updateNameStep cats target so).1 = parentMap cats := by
  unfold updateNameStep
  repeat' split
  all_goals try dsimp only
  repeat' split
  all_goals try dsimp only
  all_goals first
    | rfl
    | (refine parentMap_setCat_fields cats target.id _ ?_ ?_ <;> intro c <;> rfl)

theorem updateNameStep_acyclic (cats : List Cat) (target : Cat)
    (so : List String × List (String × String)) (hacy : AcyclicP cats) :
    AcyclicP (updateNameStep cats target so).1 :=
  acyclic_congr cats _ (fun x => (updateNameStep_parentOf cats target so x).symm) hacy

theorem updateCodeStep_parentOf (cats : List Cat) (tid : Nat) (up : List String)
    (opts : List (String × String)) (x : Nat) :
    parentOf (updateCodeStep cats tid up opts).1 x = parentOf cats x := by
  unfold updateCodeStep
  repeat' split
  all_goals try dsimp only
  all_goals first
    | rfl
    | (refine parentOf_setCat_fields cats tid _ ?_ ?_ x <;> intro c <;> rfl)

theorem updateCodeStep_parentMap (cats : List Cat) (tid : Nat) (up : List String)
    (opts : List (String × String)) :
    parentMap (updateCodeStep cats tid up opts).1 = parentMap cats := by
  unfold updateCodeStep
  repeat' split
  all_goals try dsimp only
  all_goals first
    | rfl
    | (refine parentMap_setCat_fields cats tid _ ?_ ?_ <;> intro c <;> rfl)

theorem updateEmojiStep_parentOf (cats : List Cat) (tid : Nat) (up : List String)
    (opts : List (String × String)) (x : Nat) :
    parentOf (updateEmojiStep cats tid up opts).1 x = parentOf cats x := by
  unfold updateEmojiStep
  repeat' split
  all_goals try dsimp only
  all_goals first
    | rfl
    | (refine parentOf_setCat_fields cats tid _ ?_ ?_ x <;> intro c <;> rfl)

theorem updateEmojiStep_parentMap (cats : List Cat) (tid : Nat) (up : List String)
    (opts : List (String × String)) :
    parentMap (updateEmojiStep cats tid up opts).1 = parentMap cats := by
  unfold updateEmojiStep
  repeat' split
  all_goals try dsimp only
  all_goals first
    | rfl
    | (refine parentMap_setCat_fields cats tid _ ?_ ?_ <;> intro c <;> rfl)

theorem updateCodeStep_acyclic (cats : List Cat) (tid : Nat) (up : List String)
    (opts : List (String × String)) (hacy : AcyclicP cats) :
    AcyclicP (updateCodeStep cats tid up opts).1 :=
  acyclic_congr cats _ (fun x => (updateCodeStep_parentOf cats tid up opts x).symm) hacy

theorem updateEmojiStep_acyclic (cats : List Cat) (tid : Nat) (up : List String)
    (opts : List (String × String)) (hacy : AcyclicP cats) :
    AcyclicP (updateEmojiStep cats tid up opts).1 :=
  acyclic_congr cats _ (fun x => (updateEmojiStep_parentOf cats tid up opts x).symm) hacy

theorem updateParentStep_acyclic (cats : List Cat) (tid : Nat) (up : List String)
    (opts : List (String × String)) (hacy : AcyclicP cats) :
    AcyclicP (updateParentStep cats tid up opts).1 := by
  unfold updateParentStep
  repeat' split
  all_goals try dsimp only
  all_goals try exact hacy
  · exact acyclic_clearParent cats tid hacy
  case _ h1 h2 =>
    refine acyclic_setParent cats tid _ hacy ?_ ?_
    · exact Bool.not_eq_true _ ▸ Bool.of_not_eq_true h2
    · intro hcontra
      exact h1 (by simp [hcontra])

theorem updateParentStep_unchanged_of_msg (cats : List Cat) (tid : Nat)
    (up : List String) (opts : List (String × String)) (msg : String)
    (h : (updateParentStep cats tid up opts).2.2 = some msg) :
    (updateParentStep cats tid up opts).1 = cats := by
  revert h
  unfold updateParentStep
  repeat' split
  all_goals try dsimp only
  all_goals intro h
  all_goals first
    | rfl
    | (simp at h; done)

theorem updateParentStep_unchanged_no_updates (cats : List Cat) (tid : Nat)
    (up : List String) (opts : List (String × String))
    (h : (updateParentStep cats tid up opts).2.2 = none)
    (h2 : ((updateParentStep cats tid up opts).2.1).isEmpty = true) :
    (updateParentStep cats tid up opts).1 = cats := by
  revert h h2
  unfold updateParentStep
  repeat' split
  all_goals try dsimp only
  all_goals intro h h2
  all_goals first
    | rfl
    | (simp at h; done)
    | (simp at h2; done)

set_option maxHeartbeats 2000000 in
theorem updateCategoryCore_acyclic (cats : List Cat) (args : String)
    (hacy : AcyclicP cats) : AcyclicP (updateCategoryCore cats args).1 := by
  unfold updateCategoryCore
  repeat' split
  all_goals try dsimp only
  repeat' split
  all_goals try dsimp only
  all_goals first
    | exact hacy
    | exact updateNameStep_acyclic _ _ _ hacy
    | exact updateCodeStep_acyclic _ _ _ _ (updateNameStep_acyclic _ _ _ hacy)
    | exact updateParentStep_acyclic _ _ _ _
        (updateEmojiStep_acyclic _ _ _ _ (updateCodeStep_acyclic _ _ _ _
          (updateNameStep_acyclic _ _ _ hacy)))

set_option maxHeartbeats 2000000 in
theorem updateCategoryCore_parentMap (cats : List Cat) (args : String) :
    (updateCategoryCore cats args).2.2 = false →
    parentMap (updateCategoryCore cats args).1 = parentMap cats := by
  unfold updateCategoryCore
  repeat' split
  all_goals try dsimp only
  repeat' split
  all_goals try dsimp only
  all_goals intro h
  all_goals first
    | rfl
    | (simp at h; done)
    | exact updateNameStep_parentMap _ _ _
    | exact (updateCodeStep_parentMap _ _ _ _).trans (updateNameStep_parentMap _ _ _)
    | (rw [updateParentStep_unchanged_of_msg _ _ _ _ _ (by assumption)]
       exact (updateEmojiStep_parentMap _ _ _ _).trans
        ((updateCodeStep_parentMap _ _ _ _).trans (updateNameStep_parentMap _ _ _)))
    | (rw [updateParentStep_unchanged_no_updates _ _ _ _ (by assumption) (by assumption)]
       exact (updateEmojiStep_parentMap _ _ _ _).trans
        ((updateCodeStep_parentMap _ _ _ _).trans (updateNameStep_parentMap _ _ _)))

theorem pathP_lt (cats : List Cat) (hdec : ∀ i j, StepRel cats i j → j < i) :
    ∀ (l : List Nat) (a b : Nat), PathP cats a l b → b < a := by
  intro l
  induction l with
  | nil => intro a b hp; exact hdec a b hp
  | cons x l ih =>
    intro a b hp
    obtain ⟨hs, hr⟩ := hp
    exact lt_trans (ih x b hr) (hdec a x hs)

theorem acyclicOfDecreasing (cats : List Cat)
    (hdec : ∀ i j, StepRel cats i j → j < i) : AcyclicP cats := by
  intro i hri
  obtain ⟨l, hp⟩ := hri
  exact lt_irrefl i (pathP_lt cats hdec l i i hp)

theorem stepRel_abc (i j : Nat) (h : StepRel catsAbcFix i j) : j < i := by
  have hmem := stepRel_src_mem catsAbcFix i j h
  have h2 : parentOf catsAbcFix i = some j := h
  have hmem2 : i = 1 ∨ i = 2 ∨ i = 3 := by
    simpa [catsAbcFix] using hmem
  rcases hmem2 with rfl | rfl | rfl
  · rw [show parentOf catsAbcFix 1 = none from rfl] at h2
    simp at h2
  · rw [show parentOf catsAbcFix 2 = some 1 from rfl] at h2
    have hj : (1 : Nat) = j := by injection h2
    omega
  · rw [show parentOf catsAbcFix 3 = some 2 from rfl] at h2
    have hj : (2 : Nat) = j := by injection h2
    omega

/-- C3 counterexample: `cat u a zz parent=c` on the chain `a ← b ← c` is
rejected with the cycle message, yet the session state is not left
untouched: the rename to `zz` has already been applied to the category
table (the spec says no mutation occurs on a rejected re-parent).  The
parent map itself is unchanged. -/
theorem c3_counterexample :
    (updateCategoryCore catsAbcFix "a zz parent=c").2 =
      ("❌ Se detectó un ciclo en la jerarquía de categorías.", false) ∧
    (updateCategoryCore catsAbcFix "a zz parent=c").1 =
      [⟨1, "zz", none, none, none, false⟩,
       ⟨2, "b", none, none, some 1, false⟩,
       ⟨3, "c", none, none, some 2, false⟩] ∧
    (updateCategoryCore catsAbcFix "a zz parent=c").1 ≠ catsAbcFix ∧
    parentMap (updateCategoryCore catsAbcFix "a zz parent=c").1 = parentMap catsAbcFix :=
  ⟨rfl, rfl, by decide, rfl⟩

/-- C3 (amended): re-parenting rejects the target itself as the new parent
and any new parent whose ancestor chain reaches the target (the
`_is_descendant` walk), with the self-parent and cycle messages
respectively; the walk is complete — whenever the candidate parent reaches
the target through parent edges the walk reports it on an acyclic table —
and every `update_category` call preserves acyclicity of the parent graph.
A rejected update leaves the id-to-parent map unchanged, but not
necessarily the whole table: name, code and emoji mutations performed by
the earlier steps of the same call survive in the session (see the
counterexample). -/
theorem c3_cycle_invariant :
    (∀ (cats : List Cat) (tid : Nat) (up : List String)
        (opts : List (String × String)) (po : String) (parent : Cat),
      optGet opts "parent" = some po →
      shouldClear (some po) = false →
      getCategoryByIdentifier cats po = some parent →
      parent.id = tid →
      updateParentStep cats tid up opts =
        (cats, up, some "❌ Una categoría no puede ser su propia padre.")) ∧
    (∀ (cats : List Cat) (tid : Nat) (up : List String)
        (opts : List (String × String)) (po : String) (parent : Cat),
      optGet opts "parent" = some po →
      shouldClear (some po) = false →
      getCategoryByIdentifier cats po = some parent →
      parent.id ≠ tid →
      isDescendant cats parent.id tid = true →
      updateParentStep cats tid up opts =
        (cats, up, some "❌ Se detectó un ciclo en la jerarquía de categorías.")) ∧
    (∀ (cats : List Cat) (tid a : Nat), AcyclicP cats →
      ReachesP cats a tid → isDescendant cats a tid = true) ∧
    (∀ (cats : List Cat) (args : String),
      (updateCategoryCore cats args).2.2 = false →
      parentMap (updateCategoryCore cats args).1 = parentMap cats) ∧
    (∀ (cats : List Cat) (args : String),
      AcyclicP cats → AcyclicP (updateCategoryCore cats args).1) := by
  refine ⟨?_, ?_, ?_, ?_, ?_⟩
  · intro cats tid up opts po parent h1 h2 h3 h4
    unfold updateParentStep
    rw [h1]
    dsimp only
    rw [h2]
    simp only [Bool.false_eq_true, if_false]
    rw [h3]
    dsimp only
    rw [h4]
    simp
  · intro cats tid up opts po parent h1 h2 h3 h4 h5
    unfold updateParentStep
    rw [h1]
    dsimp only
    rw [h2]
    simp only [Bool.false_eq_true, if_false]
    rw [h3]
    dsimp only
    simp [h4, h5]
  · intro cats tid a hacy hr
    exact isDescendant_complete cats tid hacy a hr
  · intro cats args h
    exact updateCategoryCore_parentMap cats args h
  · intro cats args hacy
    exact updateCategoryCore_acyclic cats args hacy

/-- C3 witness: the cycle rejection, walk completeness, parent-map
preservation and acyclicity preservation at the concrete `a ← b ← c`
fixture chain. -/
theorem c3_cycle_invariant_witness :
    updateParentStep catsAbcFix 1 [] [("parent", "c")] =
      (catsAbcFix, [], some "❌ Se detectó un ciclo en la jerarquía de categorías.") ∧
    isDescendant catsAbcFix 3 1 = true ∧
    parentMap (updateCategoryCore catsAbcFix "a zz parent=c").1 = parentMap catsAbcFix ∧
    AcyclicP (updateCategoryCore catsAbcFix "c parent=a").1 :=
  ⟨c3_cycle_invariant.2.1 catsAbcFix 1 [] [("parent", "c")] "c"
      ⟨3, "c", none, none, some 2, false⟩ rfl rfl rfl (by decide) rfl,
   c3_cycle_invariant.2.2.1 catsAbcFix 1 3 (acyclicOfDecreasing catsAbcFix stepRel_abc)
      ⟨[2], ⟨rfl, rfl⟩⟩,
   c3_cycle_invariant.2.2.2.1 catsAbcFix "a zz parent=c" rfl,
   c3_cycle_invariant.2.2.2.2 catsAbcFix "c parent=a"
      (acyclicOfDecreasing catsAbcFix stepRel_abc)⟩

end WG
